import Mathlib

/-!
# Orphan controller of longhorn-manager

A shallow embedding of `controller/orphan_controller.go`.

* Go `error` values are records carrying the text returned by `Error()` and the
  status reason that `apierrors.ReasonForError` reports for the error chain; `nil`
  is `Option.none`.
* Calls that leave the process (data store, host filesystem, disk service, work
  queue) are answered by a `World` record and logged as a list of `Effect`s, in
  program order.
* The orphan a Go method mutates through its pointer is returned next to the result.
-/

set_option autoImplicit false

namespace OrphanController

/-! ## Errors -/

/-- A Go `error` value: `text` is what `Error()` returns, `reason` is the
`metav1.StatusReason` that `apierrors.ReasonForError` finds in the chain
(the empty string is `StatusReasonUnknown`). -/
structure GoError where
  text : String
  reason : String
  deriving DecidableEq, Repr

/-- The `fmt.Errorf` of an already formatted text (only `%v` verbs are used, so nothing is wrapped). -/
def fmtErrorf (text : String) : GoError :=
  { text := text, reason := "" }

/-- The wrapper `errors.Wrapf` builds around a non-nil error: the message is put in front of
the text of the cause; the wrapper unwraps to its cause, so the status reason of the chain is kept. -/
def withMessage (e : GoError) (message : String) : GoError :=
  { text := message ++ ": " ++ e.text, reason := e.reason }

/-- The `errors.Wrapf` of `github.com/pkg/errors`: `nil` stays `nil`, any other
error is wrapped. -/
def Wrapf (err : Option GoError) (message : String) : Option GoError :=
  match err with
  | none => none
  | some e => some (withMessage e message)

/-- The `errors.Cause` of `github.com/pkg/errors`: the innermost cause has the status reason of the chain. -/
def Cause (err : GoError) : GoError := err

/-- The `apierrors.IsNotFound`: the reason of the error is `StatusReasonNotFound`. -/
def IsNotFound (err : GoError) : Bool :=
  err.reason == "NotFound"

/-- The `apierrors.IsConflict`: the reason of the error is `StatusReasonConflict`. -/
def IsConflict (err : GoError) : Bool :=
  err.reason == "Conflict"

/-- Whether `needle` occurs in `hay` as a contiguous run of characters. -/
def containsChars (needle : List Char) : List Char → Bool
  | [] => needle.isEmpty
  | c :: cs => needle.isPrefixOf (c :: cs) || containsChars needle cs

/-- The `strings.Contains` of the Go standard library. -/
def stringsContains (s substr : String) : Bool :=
  containsChars substr.data s.data

/-! ## Resources -/

/-- The `longhorn.Condition` record. -/
structure Condition where
  type : String
  status : String
  lastProbeTime : String
  lastTransitionTime : String
  reason : String
  message : String
  deriving DecidableEq, Repr

/-- The `longhorn.OrphanSpec` record; `parameters` is the Go map, read by `mapIndex`. -/
structure OrphanSpec where
  nodeID : String
  type : String
  parameters : List (String × String)
  deriving DecidableEq, Repr

/-- The `longhorn.OrphanStatus` record. -/
structure OrphanStatus where
  ownerID : String
  conditions : List Condition
  deriving DecidableEq, Repr

/-- The `longhorn.Orphan` resource; `deletionTimestamp` is the `*metav1.Time` of the object
metadata, as seconds after the zero instant. -/
structure Orphan where
  name : String
  deletionTimestamp : Option Nat
  spec : OrphanSpec
  status : OrphanStatus
  deriving DecidableEq, Repr

/-- The `longhorn.DiskSpec` fields the controller reads. -/
structure DiskSpec where
  path : String
  evictionRequested : Bool
  deriving DecidableEq, Repr

/-- The `longhorn.NodeSpec` fields the controller reads. -/
structure NodeSpec where
  evictionRequested : Bool
  disks : List (String × DiskSpec)
  deriving DecidableEq, Repr

/-- The `longhorn.Node` resource. -/
structure Node where
  name : String
  spec : NodeSpec
  deriving DecidableEq, Repr

/-- The two-result map read `v, ok := m[k]`. -/
def mapLookup {α : Type} (m : List (String × α)) (k : String) : Option α :=
  match m with
  | [] => none
  | (k1, v) :: rest => if k1 = k then some v else mapLookup rest k

/-- The one-result map read `m[k]` on a `map[string]string`: the empty string when the key is absent. -/
def mapIndex (m : List (String × String)) (k : String) : String :=
  (mapLookup m k).getD ""

/-- The one-result map read `node.Spec.Disks[diskName]`: the zero `DiskSpec` when the key is absent. -/
def diskIndex (m : List (String × DiskSpec)) (k : String) : DiskSpec :=
  (mapLookup m k).getD { path := "", evictionRequested := false }

/-- The `(*metav1.Time).IsZero`: a nil pointer or the zero instant. -/
def timeIsZero (t : Option Nat) : Bool :=
  match t with
  | none => true
  | some n => n == 0

/-! ## Constants of the API package

The constants below are declared in `k8s/pkg/apis/longhorn/v1beta2`, which is another package. -/

/-- Modelled from the spec: the `longhorn.ConditionStatusTrue` of the status enumeration `True, False, Unknown`. -/
def ConditionStatusTrue : String := "True"

/-- Modelled from the spec: the `longhorn.ConditionStatusFalse` of the status enumeration. -/
def ConditionStatusFalse : String := "False"

/-- Modelled from the spec: the `longhorn.ConditionStatusUnknown` of the status enumeration. -/
def ConditionStatusUnknown : String := "Unknown"

/-- Modelled from the spec: the condition type `DataCleanable` of the condition type enumeration. -/
def OrphanConditionTypeDataCleanable : String := "DataCleanable"

/-- Modelled from the spec: the condition type `Error` of the condition type enumeration. -/
def OrphanConditionTypeError : String := "Error"

/-- Modelled from the spec: the reason "node unavailable" of the DataCleanable condition. -/
def OrphanConditionTypeDataCleanableReasonNodeUnavailable : String := "NodeUnavailable"

/-- Modelled from the spec: the reason "node evicted" of the DataCleanable condition. -/
def OrphanConditionTypeDataCleanableReasonNodeEvicted : String := "NodeEvicted"

/-- Modelled from the spec: the reason a failed ready-disk lookup gives the DataCleanable condition;
the spec does not name it, the identifier of the source is kept. -/
def OrphanConditionTypeDataCleanableReasonDiskInvalid : String := "DiskInvalid"

/-- Modelled from the spec: the reason "disk evicted" of the DataCleanable condition. -/
def OrphanConditionTypeDataCleanableReasonDiskEvicted : String := "DiskEvicted"

/-- Modelled from the spec: the reason "disk changed" of the DataCleanable condition. -/
def OrphanConditionTypeDataCleanableReasonDiskChanged : String := "DiskChanged"

/-- Modelled from the spec: the only orphan type, `Replica`. -/
def OrphanTypeReplica : String := "replica"

/-- Modelled from the spec: the parameter key of the data directory name. -/
def OrphanDataName : String := "DataName"

/-- Modelled from the spec: the parameter key of the disk name. -/
def OrphanDiskName : String := "DiskName"

/-- Modelled from the spec: the parameter key of the disk UUID. -/
def OrphanDiskUUID : String := "DiskUUID"

/-- Modelled from the spec: the parameter key of the disk path. -/
def OrphanDiskPath : String := "DiskPath"

/-- Modelled from the spec: the parameter key of the disk type. -/
def OrphanDiskType : String := "DiskType"

/-- Modelled from the spec: the disk type `filesystem`. -/
def DiskTypeFilesystem : String := "filesystem"

/-- Modelled from the spec: the disk type `block`. -/
def DiskTypeBlock : String := "block"

/-- Modelled from the spec: the data engine of the block backend, passed to the instance manager lookup. -/
def DataEngineTypeV2 : String := "v2"

/-! ## Conditions (package `types`) -/

/-- Modelled from the spec: `types.GetCondition` is not under src; conditions are a set keyed by
type with status in `True, False, Unknown`, so the condition of the given type is returned and a
type that is not in the set reads as a condition of status Unknown. -/
def GetCondition (conditions : List Condition) (conditionType : String) : Condition :=
  match conditions with
  | [] => { type := conditionType, status := ConditionStatusUnknown, lastProbeTime := "",
            lastTransitionTime := "", reason := "", message := "" }
  | c :: rest => if c.type = conditionType then c else GetCondition rest conditionType

/-- Replace the first condition of the given type, if there is one. -/
def replaceCondition (conditions : List Condition) (c : Condition) : Option (List Condition) :=
  match conditions with
  | [] => none
  | d :: rest =>
    if d.type = c.type then some (c :: rest)
    else
      match replaceCondition rest c with
      | some replaced => some (d :: replaced)
      | none => none

/-- Put a condition in front of the first condition whose type is larger, character by character. -/
def insertCondition (conditions : List Condition) (c : Condition) : List Condition :=
  match conditions with
  | [] => [c]
  | d :: rest => if c.type.data < d.type.data then c :: d :: rest else d :: insertCondition rest c

/-- Modelled from the spec: `types.SetCondition` is not under src; conditions are an
ordered-by-type set of records with a last transition time, so the condition of the given type
gets the new status, reason and message, its transition time is set to the clock reading `now`
only when the status changes, and a new type is put at its place in the order. -/
def SetCondition (originConditions : List Condition) (conditionType : String)
    (conditionValue reason message now : String) : List Condition :=
  let condition := GetCondition originConditions conditionType
  let condition := { condition with
    lastTransitionTime := if condition.status ≠ conditionValue then now else condition.lastTransitionTime,
    status := conditionValue, reason := reason, message := message }
  match replaceCondition originConditions condition with
  | some conditions => conditions
  | none => insertCondition originConditions condition

/-! ## Paths (package `path/filepath` of the Go standard library, Unix rules) -/

/-- Cut a path at every slash. -/
def splitSlash : List Char → List (List Char)
  | [] => [[]]
  | c :: cs =>
    match splitSlash cs with
    | [] => [[]]
    | seg :: segs => if c = '/' then [] :: seg :: segs else (c :: seg) :: segs

/-- One step of `filepath.Clean` on the stack of kept elements (the top is the head): empty
and `.` elements are dropped, `..` removes the element before it, is dropped at the root and is
kept at the start of a relative path. -/
def cleanStep (rooted : Bool) (stack : List (List Char)) (elem : List Char) : List (List Char) :=
  if elem = [] ∨ elem = ['.'] then stack
  else if elem = ['.', '.'] then
    match stack with
    | [] => if rooted then [] else [elem]
    | top :: rest => if top = ['.', '.'] then elem :: top :: rest else rest
  else elem :: stack

/-- The `filepath.Clean`, element by element. -/
def filepathClean (path : String) : String :=
  if path = "" then "."
  else
    let rooted := path.data.head? = some '/'
    let stack := (splitSlash path.data).foldl (cleanStep rooted) []
    let body := String.intercalate "/" (stack.reverse.map String.mk)
    let out := (if rooted then "/" else "") ++ body
    if out = "" then "." else out

/-- The `filepath.Join`: the elements from the first non-empty one on are joined with slashes
and cleaned; without a non-empty element the result is the empty string. -/
def filepathJoin : List String → String
  | [] => ""
  | e :: rest => if e ≠ "" then filepathClean (String.intercalate "/" (e :: rest)) else filepathJoin rest

/-! ## The world outside the controller -/

/-- Calls that leave the controller, in the order they are made. -/
inductive Effect where
  | DeletePath (path : String)
  | DiskReplicaInstanceDelete (diskType diskName diskUUID diskDriver replicaInstanceName : String)
  | Close
  | UpdateOrphanStatus (orphan : Orphan)
  | RemoveFinalizerForOrphan (orphan : Orphan)
  | enqueueOrphan (orphan : Orphan)
  deriving DecidableEq, Repr

/-- A physical delete: the removal of a host path or of a replica instance of the disk service. -/
def Effect.isPhysicalDelete : Effect → Bool
  | .DeletePath _ => true
  | .DiskReplicaInstanceDelete _ _ _ _ _ => true
  | _ => false

/-- The answers of everything the controller calls during one reconcile pass: the data store, the host filesystem, the disk service, the clock, and
the helpers `isControllerResponsibleFor` and `types.ErrorIsNotFound`. The first argument of
`UpdateOrphanStatus` counts the status writes made before in the pass, the argument of `Now`
the calls of `types.SetCondition` made before. -/
structure World where
  controllerID : String
  GetOrphan : String → Except GoError Orphan
  isControllerResponsibleFor : String → String → String → String → Bool
  UpdateOrphanStatus : Nat → Orphan → Except GoError Orphan
  RemoveFinalizerForOrphan : Orphan → Option GoError
  IsNodeDownOrDeletedOrMissingManager : String → Except GoError Bool
  GetNode : String → Except GoError Node
  GetReadyDisk : String → String → Except GoError String
  GetRunningInstanceManagerByNodeRO : String → String → Except GoError String
  NewDiskServiceClient : String → Option GoError
  DiskReplicaInstanceDelete : String → String → String → String → String → Option GoError
  DeletePath : String → Option GoError
  ErrorIsNotFound : GoError → Bool
  Now : Nat → String

/-- What a method that mutates the orphan hands back: its error, the orphan afterwards and the
calls it made. -/
structure Outcome where
  err : Option GoError
  orphan : Orphan
  effects : List Effect
  deriving DecidableEq, Repr

/-! ## The controller -/

/-- The method `isResponsibleFor`. -/
def isResponsibleFor (oc : World) (orphan : Orphan) : Bool :=
  oc.isControllerResponsibleFor oc.controllerID orphan.name orphan.spec.nodeID orphan.status.ownerID

/-- The method `DeleteV2ReplicaInstance`; the deferred `Wrapf` is applied on every return. -/
def DeleteV2ReplicaInstance (oc : World) (diskName diskUUID diskDriver replicaInstanceName : String) :
    Option GoError × List Effect :=
  let wrap := fun (err : Option GoError) =>
    Wrapf err ("cannot delete v2 replica instance " ++ replicaInstanceName)
  match oc.GetRunningInstanceManagerByNodeRO oc.controllerID DataEngineTypeV2 with
  | .error err =>
    (wrap (Wrapf (some err) ("failed to get running instance manager for node " ++ oc.controllerID ++
      " for deleting v2 replica instance " ++ replicaInstanceName)), [])
  | .ok im =>
    match oc.NewDiskServiceClient im with
    | some err => (wrap (some err), [])
    | none =>
      let effects := [Effect.DiskReplicaInstanceDelete DiskTypeBlock diskName diskUUID diskDriver
        replicaInstanceName, Effect.Close]
      match oc.DiskReplicaInstanceDelete DiskTypeBlock diskName diskUUID diskDriver replicaInstanceName with
      | some err => if !oc.ErrorIsNotFound err then (wrap (some err), effects) else (wrap none, effects)
      | none => (wrap none, effects)

/-- The method `deleteOrphanedReplica`. -/
def deleteOrphanedReplica (oc : World) (orphan : Orphan) : Option GoError × List Effect :=
  match mapLookup orphan.spec.parameters OrphanDiskType with
  | none => (some (fmtErrorf ("failed to get disk type for orphan " ++ orphan.name)), [])
  | some diskType =>
    if diskType = DiskTypeFilesystem then
      let diskPath := mapIndex orphan.spec.parameters OrphanDiskPath
      let replicaDirectoryName := mapIndex orphan.spec.parameters OrphanDataName
      let path := filepathJoin [diskPath, "replicas", replicaDirectoryName]
      (Wrapf (oc.DeletePath path) ("failed to delete orphan replica directory " ++
        replicaDirectoryName ++ " in disk " ++ diskPath), [Effect.DeletePath path])
    else if diskType = DiskTypeBlock then
      DeleteV2ReplicaInstance oc (mapIndex orphan.spec.parameters OrphanDiskName)
        (mapIndex orphan.spec.parameters OrphanDiskUUID) ""
        (mapIndex orphan.spec.parameters OrphanDataName)
    else (some (fmtErrorf ("unknown disk type " ++ diskType ++ " for orphan " ++ orphan.name)), [])

/-- The deferred function of `cleanupOrphanedData`: a non-nil result is wrapped and written into
the Error condition of the orphan. -/
def cleanupDeferred (oc : World) (orphan : Orphan) (err : Option GoError) (effects : List Effect) :
    Outcome :=
  match Wrapf err ("failed to delete orphan " ++ orphan.name ++ " data") with
  | none => { err := none, orphan := orphan, effects := effects }
  | some wrapped =>
    { err := some wrapped,
      orphan := { orphan with status := { orphan.status with
        conditions := SetCondition orphan.status.conditions OrphanConditionTypeError
          ConditionStatusTrue "" wrapped.text (oc.Now 0) } },
      effects := effects }

/-- The method `cleanupOrphanedData`. -/
def cleanupOrphanedData (oc : World) (orphan : Orphan) : Outcome :=
  if orphan.spec.nodeID ≠ oc.controllerID then
    cleanupDeferred oc orphan none []
  else if (GetCondition orphan.status.conditions OrphanConditionTypeDataCleanable).status ≠
      ConditionStatusTrue then
    cleanupDeferred oc orphan none []
  else
    let r := if orphan.spec.type = OrphanTypeReplica then deleteOrphanedReplica oc orphan
      else (some (fmtErrorf ("unknown orphan type " ++ orphan.spec.type)), [])
    match r.1 with
    | none => cleanupDeferred oc orphan none r.2
    | some err =>
      if IsNotFound err then cleanupDeferred oc orphan none r.2
      else cleanupDeferred oc orphan (some err) r.2

/-- The method `checkOrphanedReplicaDataCleanable`. -/
def checkOrphanedReplicaDataCleanable (oc : World) (node : Node) (orphan : Orphan) : String :=
  match oc.GetReadyDisk node.name (mapIndex orphan.spec.parameters OrphanDiskUUID) with
  | .error err =>
    if stringsContains err.text "cannot find the ready disk" then
      OrphanConditionTypeDataCleanableReasonDiskInvalid
    else ""
  | .ok diskName =>
    let disk := diskIndex node.spec.disks diskName
    if diskName ≠ mapIndex orphan.spec.parameters OrphanDiskName ∨
        disk.path ≠ mapIndex orphan.spec.parameters OrphanDiskPath then
      OrphanConditionTypeDataCleanableReasonDiskChanged
    else if disk.evictionRequested then
      OrphanConditionTypeDataCleanableReasonDiskEvicted
    else ""

/-- The body of `updateDataCleanableCondition` before its deferred function: the error, or
the reason the body leaves in its local variable. -/
def dataCleanableReason (oc : World) (orphan : Orphan) : Except GoError String :=
  match oc.IsNodeDownOrDeletedOrMissingManager orphan.spec.nodeID with
  | .error err =>
    .error (withMessage err ("failed to check node down or missing manager for node " ++
      orphan.spec.nodeID))
  | .ok isUnavailable =>
    if isUnavailable then .ok OrphanConditionTypeDataCleanableReasonNodeUnavailable
    else
      match oc.GetNode orphan.spec.nodeID with
      | .error err =>
        if !IsNotFound err then .error (fmtErrorf ("failed to get node " ++ orphan.spec.nodeID))
        else .ok OrphanConditionTypeDataCleanableReasonNodeUnavailable
      | .ok node =>
        if node.spec.evictionRequested then .ok OrphanConditionTypeDataCleanableReasonNodeEvicted
        else if orphan.spec.type = OrphanTypeReplica then
          .ok (checkOrphanedReplicaDataCleanable oc node orphan)
        else .ok ""

/-- The method `updateDataCleanableCondition`: on an error the orphan is left as it is,
otherwise the deferred function sets the DataCleanable condition from the reason. `k` is the
number of `types.SetCondition` calls made before in the pass. -/
def updateDataCleanableCondition (oc : World) (k : Nat) (orphan : Orphan) : Except GoError Orphan :=
  match dataCleanableReason oc orphan with
  | .error err => .error err
  | .ok reason =>
    let status := if reason ≠ "" then ConditionStatusFalse else ConditionStatusTrue
    .ok { orphan with status := { orphan.status with
      conditions := SetCondition orphan.status.conditions OrphanConditionTypeDataCleanable
        status reason "" (oc.Now k) } }

/-- The method `updateConditions`. -/
def updateConditions (oc : World) (orphan : Orphan) : Except GoError Orphan :=
  match updateDataCleanableCondition oc 0 orphan with
  | .error err => .error err
  | .ok orphan =>
    if (GetCondition orphan.status.conditions OrphanConditionTypeError).status ≠
        ConditionStatusTrue then
      .ok { orphan with status := { orphan.status with
        conditions := SetCondition orphan.status.conditions OrphanConditionTypeError
          ConditionStatusFalse "" "" (oc.Now 1) } }
    else .ok orphan

/-- What `reconcile` hands back: its error and the calls it made. -/
structure ReconcileResult where
  err : Option GoError
  effects : List Effect
  deriving DecidableEq, Repr

/-- The ownership step of `reconcile`: either the pass ends here with the given result, or it
goes on with the orphan and the calls made so far. -/
def claimOwnership (oc : World) (orphan : Orphan) : ReconcileResult ⊕ (Orphan × List Effect) :=
  if orphan.status.ownerID ≠ oc.controllerID then
    let claimed := { orphan with status := { orphan.status with ownerID := oc.controllerID } }
    match oc.UpdateOrphanStatus 0 claimed with
    | .error err =>
      if IsConflict (Cause err) then .inl { err := none, effects := [Effect.UpdateOrphanStatus claimed] }
      else .inl { err := some err, effects := [Effect.UpdateOrphanStatus claimed] }
    | .ok stored => .inr (stored, [Effect.UpdateOrphanStatus claimed])
  else .inr (orphan, [])

/-- The deletion branch of `reconcile`: `cleanupOrphanedData`, then the deferred removal of the
finalizer when the result is nil. -/
def reconcileDeletion (oc : World) (orphan : Orphan) (done : List Effect) : ReconcileResult :=
  let r := cleanupOrphanedData oc orphan
  match r.err with
  | none =>
    { err := oc.RemoveFinalizerForOrphan r.orphan,
      effects := done ++ r.effects ++ [Effect.RemoveFinalizerForOrphan r.orphan] }
  | some err => { err := some err, effects := done ++ r.effects }

/-- The normal branch of `reconcile`: `updateConditions`, then the deferred status write when
the status differs from the copy taken before. -/
def reconcileNormal (oc : World) (orphan : Orphan) (done : List Effect) : ReconcileResult :=
  let existingOrphan := orphan
  match updateConditions oc orphan with
  | .error err =>
    { err := Wrapf (some err) ("failed to update conditions for orphan " ++ orphan.name),
      effects := done }
  | .ok orphan =>
    if existingOrphan.status = orphan.status then { err := none, effects := done }
    else
      match oc.UpdateOrphanStatus done.length orphan with
      | .error err =>
        if IsConflict (Cause err) then
          { err := none, effects := done ++ [Effect.UpdateOrphanStatus orphan, Effect.enqueueOrphan orphan] }
        else { err := none, effects := done ++ [Effect.UpdateOrphanStatus orphan] }
      | .ok _ => { err := none, effects := done ++ [Effect.UpdateOrphanStatus orphan] }

/-- The method `reconcile`. -/
def reconcile (oc : World) (orphanName : String) : ReconcileResult :=
  match oc.GetOrphan orphanName with
  | .error err => if !IsNotFound err then { err := some err, effects := [] } else { err := none, effects := [] }
  | .ok orphan =>
    if !isResponsibleFor oc orphan then { err := none, effects := [] }
    else
      match claimOwnership oc orphan with
      | .inl result => result
      | .inr (orphan, done) =>
        if !timeIsZero orphan.deletionTimestamp then reconcileDeletion oc orphan done
        else reconcileNormal oc orphan done

/-! ## The work queue -/

/-- A call on the rate limited work queue. -/
inductive QueueCall where
  | Forget (key : String)
  | AddRateLimited (key : String)
  deriving DecidableEq, Repr

/-- The rate limited work queue of client-go, as far as `handleErr` uses it: the number of
requeues of every key, and the calls made so far (the last call is the head). -/
structure Queue where
  requeues : String → Nat
  calls : List QueueCall

/-- The `NumRequeues` of the queue. -/
def Queue.NumRequeues (q : Queue) (key : String) : Nat :=
  q.requeues key

/-- The `Forget` of the queue: the requeue count of the key is cleared. -/
def Queue.Forget (q : Queue) (key : String) : Queue :=
  { requeues := fun k => if k = key then 0 else q.requeues k,
    calls := QueueCall.Forget key :: q.calls }

/-- The `AddRateLimited` of the queue: the key is added again after the delay of the rate
limiter, which counts the requeue. -/
def Queue.AddRateLimited (q : Queue) (key : String) : Queue :=
  { requeues := fun k => if k = key then q.requeues k + 1 else q.requeues k,
    calls := QueueCall.AddRateLimited key :: q.calls }

/-- The method `handleErr`; `maxRetries` is a constant of the package declared in another file,
the logging calls do not touch the queue. -/
def handleErr (maxRetries : Nat) (queue : Queue) (err : Option GoError) (key : String) : Queue :=
  match err with
  | none => queue.Forget key
  | some _ =>
    if queue.NumRequeues key < maxRetries then queue.AddRateLimited key
    else queue.Forget key

/-- The queue after `n` passes over a key whose sync fails every time with `err`. -/
def handleErrRepeat (maxRetries : Nat) (err : GoError) (key : String) : Nat → Queue → Queue
  | 0, queue => queue
  | n + 1, queue => handleErrRepeat maxRetries err key n (handleErr maxRetries queue (some err) key)

/-! ## Specification side definitions -/

/-- The removal of the finalizer. -/
def Effect.isRemoveFinalizer : Effect → Bool
  | .RemoveFinalizerForOrphan _ => true
  | _ => false

/-- A status write. -/
def Effect.isUpdateOrphanStatus : Effect → Bool
  | .UpdateOrphanStatus _ => true
  | _ => false

/-- The re-enqueue of the orphan key. -/
def Effect.isEnqueue : Effect → Bool
  | .enqueueOrphan _ => true
  | _ => false

/-- A path lies strictly below a directory: it is the path of the directory, a slash and at
least one more character. -/
def isStrictDescendant (dir path : String) : Bool :=
  (dir.data ++ ['/']).isPrefixOf path.data && decide (dir.data.length + 1 < path.data.length)

/-- A single path element: not empty, neither `.` nor `..`, and without a slash. -/
def isPathElement (name : String) : Bool :=
  decide (name.data ≠ []) && decide (name.data ≠ ['.']) && decide (name.data ≠ ['.', '.']) &&
    !name.data.contains '/'

/-- The text `filepath.Clean` returns for a non-empty path whose elements are `segs`. -/
def cleanOutput (rooted : Bool) (segs : List (List Char)) : String :=
  let out := (if rooted then "/" else "") ++
    String.intercalate "/" ((segs.foldl (cleanStep rooted) []).reverse.map String.mk)
  if out = "" then "." else out

/-- The error a physical delete came back with, when it is not one the path it was issued on
takes for "not found": `apierrors.IsNotFound` for the host path, `types.ErrorIsNotFound` or
`apierrors.IsNotFound` for the replica instance of the disk service. -/
def failedDelete (oc : World) : Effect → Option GoError
  | .DeletePath path =>
    match oc.DeletePath path with
    | some err => if IsNotFound err then none else some err
    | none => none
  | .DiskReplicaInstanceDelete diskType diskName diskUUID diskDriver replicaInstanceName =>
    match oc.DiskReplicaInstanceDelete diskType diskName diskUUID diskDriver replicaInstanceName with
    | some err => if oc.ErrorIsNotFound err || IsNotFound err then none else some err
    | none => none
  | _ => none

/-- The table of the DataCleanable condition in the words of the specification, for a Replica
orphan: the status and the reason of the first row that matches, and nothing when a lookup the
rows need fails (a node that is not found counts as an answer). -/
def dataCleanableTable (oc : World) (orphan : Orphan) : Option (String × String) :=
  match oc.IsNodeDownOrDeletedOrMissingManager orphan.spec.nodeID with
  | .error _ => none
  | .ok true => some (ConditionStatusFalse, OrphanConditionTypeDataCleanableReasonNodeUnavailable)
  | .ok false =>
    match oc.GetNode orphan.spec.nodeID with
    | .error err =>
      if IsNotFound err then
        some (ConditionStatusFalse, OrphanConditionTypeDataCleanableReasonNodeUnavailable)
      else none
    | .ok node =>
      if node.spec.evictionRequested then
        some (ConditionStatusFalse, OrphanConditionTypeDataCleanableReasonNodeEvicted)
      else
        match oc.GetReadyDisk node.name (mapIndex orphan.spec.parameters OrphanDiskUUID) with
        | .error _ => none
        | .ok diskName =>
          if diskName ≠ mapIndex orphan.spec.parameters OrphanDiskName ∨
              (diskIndex node.spec.disks diskName).path ≠
                mapIndex orphan.spec.parameters OrphanDiskPath then
            some (ConditionStatusFalse, OrphanConditionTypeDataCleanableReasonDiskChanged)
          else if (diskIndex node.spec.disks diskName).evictionRequested then
            some (ConditionStatusFalse, OrphanConditionTypeDataCleanableReasonDiskEvicted)
          else some (ConditionStatusTrue, "")

/-- The status, reason and message of the condition of the given type after a method that
returns the orphan or an error. -/
def conditionAfter (result : Except GoError Orphan) (conditionType : String) :
    Option (String × String × String) :=
  match result with
  | .error _ => none
  | .ok orphan =>
    let c := GetCondition orphan.status.conditions conditionType
    some (c.status, c.reason, c.message)

/-- Disk identity is established: the node is available and not eviction-requested, and the
disk UUID of the orphan resolves to a ready disk of the node with the name and the path of the
orphan that is not eviction-requested. -/
def diskIdentityEstablished (oc : World) (orphan : Orphan) : Bool :=
  match oc.IsNodeDownOrDeletedOrMissingManager orphan.spec.nodeID with
  | .ok false =>
    match oc.GetNode orphan.spec.nodeID with
    | .ok node =>
      !node.spec.evictionRequested &&
      match oc.GetReadyDisk node.name (mapIndex orphan.spec.parameters OrphanDiskUUID) with
      | .ok diskName =>
        diskName == mapIndex orphan.spec.parameters OrphanDiskName &&
        (diskIndex node.spec.disks diskName).path == mapIndex orphan.spec.parameters OrphanDiskPath &&
        !(diskIndex node.spec.disks diskName).evictionRequested
      | .error _ => false
    | .error _ => false
  | _ => false

/-! ## Example clusters -/

/-- A node with one disk, nothing evicted. -/
def exampleNode : Node :=
  { name := "node-1",
    spec := { evictionRequested := false,
              disks := [("disk-1", { path := "/var/disk1", evictionRequested := false })] } }

/-- A cluster in which every call succeeds: the controller runs on `node-1`, the node is up and
holds the ready disk `disk-1`. -/
def exampleWorld : World :=
  { controllerID := "node-1",
    GetOrphan := fun _ => .error { text := "orphan not found", reason := "NotFound" },
    isControllerResponsibleFor := fun _ _ _ _ => true,
    UpdateOrphanStatus := fun _ o => .ok o,
    RemoveFinalizerForOrphan := fun _ => none,
    IsNodeDownOrDeletedOrMissingManager := fun _ => .ok false,
    GetNode := fun _ => .ok exampleNode,
    GetReadyDisk := fun _ _ => .ok "disk-1",
    GetRunningInstanceManagerByNodeRO := fun _ _ => .ok "instance-manager-1",
    NewDiskServiceClient := fun _ => none,
    DiskReplicaInstanceDelete := fun _ _ _ _ _ => none,
    DeletePath := fun _ => none,
    ErrorIsNotFound := fun err => stringsContains err.text "cannot find",
    Now := fun _ => "2024-01-01T00:00:00Z" }

/-- The DataCleanable condition with status True. -/
def cleanableCondition : Condition :=
  { type := OrphanConditionTypeDataCleanable, status := ConditionStatusTrue, lastProbeTime := "",
    lastTransitionTime := "2023-12-31T00:00:00Z", reason := "", message := "" }

/-- An orphan of the given disk type on `node-1`, owned by the controller, marked for deletion,
with the given conditions. -/
def exampleOrphan (diskType : String) (conditions : List Condition) : Orphan :=
  { name := "orphan-1",
    deletionTimestamp := some 1700000000,
    spec := { nodeID := "node-1", type := OrphanTypeReplica,
              parameters := [(OrphanDiskType, diskType), (OrphanDiskName, "disk-1"),
                (OrphanDiskUUID, "uuid-1"), (OrphanDiskPath, "/var/disk1"),
                (OrphanDataName, "pvc-1-r-abc")] },
    status := { ownerID := "node-1", conditions := conditions } }

/-- A filesystem-backed orphan whose data may be cleaned. -/
def fsOrphan : Orphan := exampleOrphan DiskTypeFilesystem [cleanableCondition]

/-- A block-backed orphan whose data may be cleaned. -/
def blockOrphan : Orphan := exampleOrphan DiskTypeBlock [cleanableCondition]

/-- The example cluster with an answer for the fetch of the orphan. -/
def worldWith (oc : World) (orphan : Orphan) : World :=
  { oc with GetOrphan := fun _ => .ok orphan }

/-- A transient error of the disk service. -/
def transientError : GoError := { text := "rpc error: connection refused", reason := "" }

/-- The example cluster with a disk service that fails. -/
def brokenDiskService : World :=
  { exampleWorld with DiskReplicaInstanceDelete := fun _ _ _ _ _ => some transientError }

/-- The example cluster with a disk service that does not find the replica instance. -/
def missingInstance : World :=
  { exampleWorld with
    DiskReplicaInstanceDelete := fun _ _ _ _ _ => some { text := "cannot find replica instance", reason := "" } }

/-- The example cluster with a ready-disk lookup that fails because the node is not ready. -/
def failingDiskLookup : World :=
  { exampleWorld with
    GetReadyDisk := fun _ _ => .error { text := "node node-1 is not ready", reason := "" } }

/-- An orphan of a type other than Replica, without parameters and conditions. -/
def otherTypeOrphan : Orphan :=
  { name := "orphan-2", deletionTimestamp := none,
    spec := { nodeID := "node-1", type := "engine", parameters := [] },
    status := { ownerID := "node-1", conditions := [] } }

/-- The Error condition with status True, as a failed cleanup writes it. -/
def errorCondition : Condition :=
  { type := OrphanConditionTypeError, status := ConditionStatusTrue, lastProbeTime := "",
    lastTransitionTime := "2023-12-31T00:00:00Z", reason := "",
    message := "failed to delete orphan orphan-1 data" }

/-- An orphan that is not marked for deletion. -/
def liveOrphan (conditions : List Condition) : Orphan :=
  { exampleOrphan DiskTypeFilesystem conditions with deletionTimestamp := none }

/-- The example cluster with an eviction request on the node. -/
def evictedNode : World :=
  { exampleWorld with
    GetNode := fun _ => .ok { name := "node-1", spec := { evictionRequested := true, disks := [] } } }

/-- The conditions of an orphan after a pass of the normal branch in the example cluster. -/
def settledConditions : List Condition :=
  [cleanableCondition,
   { type := OrphanConditionTypeError, status := ConditionStatusFalse, lastProbeTime := "",
     lastTransitionTime := "2024-01-01T00:00:00Z", reason := "", message := "" }]

/-- The example cluster at a later reading of the clock. -/
def laterWorld : World :=
  { exampleWorld with Now := fun _ => "2024-06-01T00:00:00Z" }

/-- The example cluster with a store that answers every status write with a conflict. -/
def conflictingStore : World :=
  { exampleWorld with
    UpdateOrphanStatus := fun _ _ =>
      .error { text := "the object has been modified", reason := "Conflict" } }

/-- A filesystem-backed orphan whose data may be cleaned and whose parameters have no data
directory name. -/
def namelessOrphan : Orphan :=
  { name := "orphan-3",
    deletionTimestamp := some 1700000000,
    spec := { nodeID := "node-1", type := OrphanTypeReplica,
              parameters := [(OrphanDiskType, DiskTypeFilesystem), (OrphanDiskName, "disk-1"),
                (OrphanDiskUUID, "uuid-1"), (OrphanDiskPath, "/var/disk1")] },
    status := { ownerID := "node-1", conditions := [cleanableCondition] } }

/-- A filesystem-backed orphan whose data may be cleaned and whose data directory name is
the parent directory. -/
def parentOrphan : Orphan :=
  { name := "orphan-4",
    deletionTimestamp := some 1700000000,
    spec := { nodeID := "node-1", type := OrphanTypeReplica,
              parameters := [(OrphanDiskType, DiskTypeFilesystem), (OrphanDiskName, "disk-1"),
                (OrphanDiskUUID, "uuid-1"), (OrphanDiskPath, "/var/disk1"),
                (OrphanDataName, "../..")] },
    status := { ownerID := "node-1", conditions := [cleanableCondition] } }

theorem GetCondition_type (cs : List Condition) (t : String) : (GetCondition cs t).type = t := by
  induction cs with
  | nil => rfl
  | cons d rest ih =>
    unfold GetCondition
    split
    · assumption
    · exact ih

theorem GetCondition_replaceCondition (cs cs1 : List Condition) (c : Condition) (t : String)
    (h : replaceCondition cs c = some cs1) :
    GetCondition cs1 t = if c.type = t then c else GetCondition cs t := by
  induction cs generalizing cs1 with
  | nil => simp [replaceCondition] at h
  | cons d rest ih =>
    unfold replaceCondition at h
    by_cases hd : d.type = c.type
    · simp only [hd, if_true, Option.some.injEq] at h
      subst h
      by_cases ht : c.type = t
      · simp [GetCondition, ht, hd]
      · simp [GetCondition, ht, hd]
    · cases hr : replaceCondition rest c with
      | none => simp [hd, hr] at h
      | some r =>
        simp only [hd, if_false, hr, Option.some.injEq] at h
        subst h
        have := ih r hr
        by_cases hdt : d.type = t
        · have hct : ¬ c.type = t := fun e => hd (hdt.trans e.symm)
          simp [GetCondition, hdt, hct]
        · simp [GetCondition, hdt, this]

theorem replaceCondition_none_cons (d c : Condition) (rest : List Condition)
    (h : replaceCondition (d :: rest) c = none) : d.type ≠ c.type ∧ replaceCondition rest c = none := by
  unfold replaceCondition at h
  by_cases hd : d.type = c.type
  · simp [hd] at h
  · cases hr : replaceCondition rest c with
    | none => exact ⟨hd, rfl⟩
    | some r => simp [hd, hr] at h

theorem replaceCondition_fixed_cons (d c : Condition) (rest : List Condition)
    (h : replaceCondition (d :: rest) c = some (d :: rest)) :
    (d.type = c.type ∧ d = c) ∨ (d.type ≠ c.type ∧ replaceCondition rest c = some rest) := by
  unfold replaceCondition at h
  by_cases hd : d.type = c.type
  · simp only [hd, if_true, Option.some.injEq, List.cons.injEq, and_true] at h
    exact Or.inl ⟨hd, h.symm⟩
  · cases hr : replaceCondition rest c with
    | none => simp [hd, hr] at h
    | some r =>
      simp only [hd, if_false, hr, Option.some.injEq, List.cons.injEq, true_and] at h
      exact Or.inr ⟨hd, by rw [h]⟩

theorem GetCondition_insertCondition (cs : List Condition) (c : Condition) (t : String)
    (h : replaceCondition cs c = none) :
    GetCondition (insertCondition cs c) t = if c.type = t then c else GetCondition cs t := by
  induction cs with
  | nil =>
    by_cases ht : c.type = t <;> simp [insertCondition, GetCondition, ht]
  | cons d rest ih =>
    obtain ⟨hd, hr⟩ := replaceCondition_none_cons d c rest h
    have := ih hr
    unfold insertCondition
    by_cases hlt : c.type.data < d.type.data
    · simp only [hlt, if_true]
      by_cases ht : c.type = t
      · simp [GetCondition, ht]
      · simp [GetCondition, ht]
    · simp only [hlt, if_false]
      by_cases hdt : d.type = t
      · have hct : ¬ c.type = t := fun e => hd (hdt.trans e.symm)
        simp [GetCondition, hdt, hct]
      · simp [GetCondition, hdt, this]

/-- The condition `SetCondition` writes. -/
theorem GetCondition_SetCondition (cs : List Condition) (t v r m now t1 : String) :
    GetCondition (SetCondition cs t v r m now) t1 =
      if t = t1 then
        { GetCondition cs t with
          lastTransitionTime :=
            if (GetCondition cs t).status ≠ v then now else (GetCondition cs t).lastTransitionTime,
          status := v, reason := r, message := m }
      else GetCondition cs t1 := by
  unfold SetCondition
  simp only
  split
  · rename_i cs1 h
    rw [GetCondition_replaceCondition _ _ _ _ h]
    simp [GetCondition_type]
  · rename_i h
    rw [GetCondition_insertCondition _ _ _ h]
    simp [GetCondition_type]

theorem replaceCondition_fixed (cs cs1 : List Condition) (c : Condition)
    (h : replaceCondition cs c = some cs1) : replaceCondition cs1 c = some cs1 := by
  induction cs generalizing cs1 with
  | nil => simp [replaceCondition] at h
  | cons d rest ih =>
    unfold replaceCondition at h
    by_cases hd : d.type = c.type
    · simp only [hd, if_true, Option.some.injEq] at h
      subst h
      simp [replaceCondition]
    · cases hr : replaceCondition rest c with
      | none => simp [hd, hr] at h
      | some r =>
        simp only [hd, if_false, hr, Option.some.injEq] at h
        subst h
        simp [replaceCondition, hd, ih r hr]

theorem replaceCondition_insertCondition (cs : List Condition) (c : Condition)
    (h : replaceCondition cs c = none) :
    replaceCondition (insertCondition cs c) c = some (insertCondition cs c) := by
  induction cs with
  | nil => simp [insertCondition, replaceCondition]
  | cons d rest ih =>
    obtain ⟨hd, hr⟩ := replaceCondition_none_cons d c rest h
    unfold insertCondition
    by_cases hlt : c.type.data < d.type.data
    · simp [hlt, replaceCondition]
    · simp [hlt, replaceCondition, hd, ih hr]

/-- A condition that is the first of its type stays so when a condition of another type is replaced. -/
theorem replaceCondition_other (cs cs1 : List Condition) (c d : Condition) (hne : d.type ≠ c.type)
    (hc : replaceCondition cs c = some cs) (hd : replaceCondition cs d = some cs1) :
    replaceCondition cs1 c = some cs1 := by
  induction cs generalizing cs1 with
  | nil => simp [replaceCondition] at hd
  | cons e rest ih =>
    unfold replaceCondition at hd
    by_cases hed : e.type = d.type
    · simp only [hed, if_true, Option.some.injEq] at hd
      subst hd
      rcases replaceCondition_fixed_cons e c rest hc with ⟨hec, _⟩ | ⟨_, hrest⟩
      · exact absurd (hed.symm.trans hec) hne
      · simp [replaceCondition, hne, hrest]
    · cases hr : replaceCondition rest d with
      | none => simp [hed, hr] at hd
      | some r =>
        simp only [hed, if_false, hr, Option.some.injEq] at hd
        subst hd
        rcases replaceCondition_fixed_cons e c rest hc with ⟨hec, he⟩ | ⟨hec, hrest⟩
        · simp [replaceCondition, hec, he]
        · simp [replaceCondition, hec, ih r hrest hr]

/-- A condition that is the first of its type stays so when a condition of another type is inserted. -/
theorem replaceCondition_insert_other (cs : List Condition) (c d : Condition) (hne : d.type ≠ c.type)
    (hc : replaceCondition cs c = some cs) :
    replaceCondition (insertCondition cs d) c = some (insertCondition cs d) := by
  induction cs with
  | nil => simp [replaceCondition] at hc
  | cons e rest ih =>
    unfold insertCondition
    by_cases hlt : d.type.data < e.type.data
    · simp only [hlt, if_true]
      rw [replaceCondition]
      simp [hne, hc]
    · simp only [hlt, if_false]
      rcases replaceCondition_fixed_cons e c rest hc with ⟨hec, he⟩ | ⟨hec, hrest⟩
      · simp [replaceCondition, hec, he]
      · simp [replaceCondition, hec, ih hrest]

theorem GetCondition_of_fixed (cs : List Condition) (c : Condition)
    (h : replaceCondition cs c = some cs) : GetCondition cs c.type = c := by
  have := GetCondition_replaceCondition cs cs c c.type h
  simpa using this

/-- The condition `SetCondition` wrote is the first of its type in the result. -/
theorem SetCondition_fixed (cs : List Condition) (t v r m now : String) :
    replaceCondition (SetCondition cs t v r m now)
      (GetCondition (SetCondition cs t v r m now) t) = some (SetCondition cs t v r m now) := by
  rw [GetCondition_SetCondition]
  simp only [if_true]
  unfold SetCondition
  simp only
  split
  · rename_i cs1 h
    exact replaceCondition_fixed _ _ _ h
  · rename_i h
    exact replaceCondition_insertCondition _ _ h

/-- A condition of another type that is the first of its type stays so under `SetCondition`. -/
theorem SetCondition_keeps (cs : List Condition) (c : Condition) (t v r m now : String)
    (hne : t ≠ c.type) (hc : replaceCondition cs c = some cs) :
    replaceCondition (SetCondition cs t v r m now) c = some (SetCondition cs t v r m now) := by
  unfold SetCondition
  simp only
  split
  · rename_i cs1 h
    exact replaceCondition_other cs cs1 c _ (by simpa [GetCondition_type] using hne) hc h
  · rename_i h
    exact replaceCondition_insert_other cs c _ (by simpa [GetCondition_type] using hne) hc

/-- Setting a condition to the status, reason and message it has changes nothing, whatever the clock reads. -/
theorem SetCondition_same (cs : List Condition) (c : Condition) (now : String)
    (hc : replaceCondition cs c = some cs) :
    SetCondition cs c.type c.status c.reason c.message now = cs := by
  have hg := GetCondition_of_fixed cs c hc
  obtain ⟨ty, st, pt, tt, re, me⟩ := c
  unfold SetCondition
  simp only at hg hc ⊢
  simp only [hg, ne_eq, not_true_eq_false, if_false]
  rw [hc]

/-! ## Facts about the cleanup -/

theorem cleanupDeferred_none (oc : World) (orphan : Orphan) (effects : List Effect) :
    cleanupDeferred oc orphan none effects = { err := none, orphan := orphan, effects := effects } := rfl

theorem cleanupDeferred_effects (oc : World) (orphan : Orphan) (err : Option GoError)
    (effects : List Effect) : (cleanupDeferred oc orphan err effects).effects = effects := by
  cases err <;> rfl

theorem cleanupDeferred_some_err (oc : World) (orphan : Orphan) (err : GoError)
    (effects : List Effect) :
    (cleanupDeferred oc orphan (some err) effects).err =
      some (withMessage err ("failed to delete orphan " ++ orphan.name ++ " data")) := rfl

/-- Outside the two preconditions the cleanup does nothing. -/
theorem cleanupOrphanedData_skip (oc : World) (orphan : Orphan)
    (h : ¬ (orphan.spec.nodeID = oc.controllerID ∧
      (GetCondition orphan.status.conditions OrphanConditionTypeDataCleanable).status =
        ConditionStatusTrue)) :
    cleanupOrphanedData oc orphan = { err := none, orphan := orphan, effects := [] } := by
  unfold cleanupOrphanedData
  by_cases h1 : orphan.spec.nodeID = oc.controllerID
  · have h2 : ¬ (GetCondition orphan.status.conditions OrphanConditionTypeDataCleanable).status =
        ConditionStatusTrue := fun e => h ⟨h1, e⟩
    simp [h1, h2, cleanupDeferred_none]
  · simp [h1, cleanupDeferred_none]

/-- Inside the two preconditions the cleanup is the dispatch on the orphan type. -/
theorem cleanupOrphanedData_run (oc : World) (orphan : Orphan)
    (h1 : orphan.spec.nodeID = oc.controllerID)
    (h2 : (GetCondition orphan.status.conditions OrphanConditionTypeDataCleanable).status =
      ConditionStatusTrue) :
    cleanupOrphanedData oc orphan =
      (let r := if orphan.spec.type = OrphanTypeReplica then deleteOrphanedReplica oc orphan
        else (some (fmtErrorf ("unknown orphan type " ++ orphan.spec.type)), [])
      match r.1 with
      | none => cleanupDeferred oc orphan none r.2
      | some err =>
        if IsNotFound err then cleanupDeferred oc orphan none r.2
        else cleanupDeferred oc orphan (some err) r.2) := by
  unfold cleanupOrphanedData
  simp [h1, h2]

/-- The calls of the cleanup are those of the dispatch. -/
theorem cleanupOrphanedData_effects_run (oc : World) (orphan : Orphan)
    (h1 : orphan.spec.nodeID = oc.controllerID)
    (h2 : (GetCondition orphan.status.conditions OrphanConditionTypeDataCleanable).status =
      ConditionStatusTrue) :
    (cleanupOrphanedData oc orphan).effects =
      if orphan.spec.type = OrphanTypeReplica then (deleteOrphanedReplica oc orphan).2 else [] := by
  rw [cleanupOrphanedData_run oc orphan h1 h2]
  by_cases ht : orphan.spec.type = OrphanTypeReplica
  · simp only [ht, if_true]
    split
    · exact cleanupDeferred_effects _ _ _ _
    · split <;> exact cleanupDeferred_effects _ _ _ _
  · simp only [ht, if_false]
    split
    · exact cleanupDeferred_effects _ _ _ _
    · exact cleanupDeferred_effects _ _ _ _

theorem withMessage_IsNotFound (err : GoError) (message : String) :
    IsNotFound (withMessage err message) = IsNotFound err := rfl

theorem fmtErrorf_IsNotFound (text : String) : IsNotFound (fmtErrorf text) = false := by
  simp [IsNotFound, fmtErrorf]

/-- The calls `DeleteV2ReplicaInstance` can make. -/
theorem DeleteV2ReplicaInstance_effects (oc : World) (diskName diskUUID diskDriver name : String) :
    (DeleteV2ReplicaInstance oc diskName diskUUID diskDriver name).2 = [] ∨
    (DeleteV2ReplicaInstance oc diskName diskUUID diskDriver name).2 =
      [Effect.DiskReplicaInstanceDelete DiskTypeBlock diskName diskUUID diskDriver name, Effect.Close] := by
  unfold DeleteV2ReplicaInstance
  simp only
  split
  · exact Or.inl rfl
  · split
    · exact Or.inl rfl
    · split
      · split <;> exact Or.inr rfl
      · exact Or.inr rfl

/-- A failed remote delete makes `DeleteV2ReplicaInstance` fail with an error that is not a
not-found error. -/
theorem DeleteV2ReplicaInstance_failed (oc : World) (diskName diskUUID diskDriver name : String)
    (err : GoError)
    (hmem : Effect.DiskReplicaInstanceDelete DiskTypeBlock diskName diskUUID diskDriver name ∈
      (DeleteV2ReplicaInstance oc diskName diskUUID diskDriver name).2)
    (hans : oc.DiskReplicaInstanceDelete DiskTypeBlock diskName diskUUID diskDriver name = some err)
    (h1 : oc.ErrorIsNotFound err = false) :
    (DeleteV2ReplicaInstance oc diskName diskUUID diskDriver name).1 =
      some (withMessage err ("cannot delete v2 replica instance " ++ name)) := by
  unfold DeleteV2ReplicaInstance at hmem ⊢
  simp only at hmem ⊢
  split
  · rename_i e he
    simp [he] at hmem
  · rename_i im him
    split
    · rename_i e he
      simp [him, he] at hmem
    · simp [hans, h1, Wrapf]

/-- The calls `deleteOrphanedReplica` can make. -/
theorem deleteOrphanedReplica_effects (oc : World) (orphan : Orphan) (e : Effect)
    (h : e ∈ (deleteOrphanedReplica oc orphan).2) :
    (mapLookup orphan.spec.parameters OrphanDiskType = some DiskTypeFilesystem ∧
      e = Effect.DeletePath (filepathJoin [mapIndex orphan.spec.parameters OrphanDiskPath, "replicas",
        mapIndex orphan.spec.parameters OrphanDataName])) ∨
    (mapLookup orphan.spec.parameters OrphanDiskType = some DiskTypeBlock ∧
      (e = Effect.Close ∨
       e = Effect.DiskReplicaInstanceDelete DiskTypeBlock (mapIndex orphan.spec.parameters OrphanDiskName)
        (mapIndex orphan.spec.parameters OrphanDiskUUID) ""
        (mapIndex orphan.spec.parameters OrphanDataName))) := by
  unfold deleteOrphanedReplica at h
  split at h
  · simp at h
  · rename_i diskType hdt
    by_cases hfs : diskType = DiskTypeFilesystem
    · subst hfs
      simp only [if_true, List.mem_singleton] at h
      exact Or.inl ⟨hdt, h⟩
    · simp only [hfs, if_false] at h
      by_cases hb : diskType = DiskTypeBlock
      · subst hb
        simp only [if_true] at h
        refine Or.inr ⟨hdt, ?_⟩
        rcases DeleteV2ReplicaInstance_effects oc (mapIndex orphan.spec.parameters OrphanDiskName)
          (mapIndex orphan.spec.parameters OrphanDiskUUID) ""
          (mapIndex orphan.spec.parameters OrphanDataName) with h0 | h0
        · rw [h0] at h; simp at h
        · rw [h0] at h
          simp only [List.mem_cons, List.mem_singleton, List.not_mem_nil, or_false] at h
          tauto
      · simp [hb] at h

/-- A physical delete that failed with an error other than not-found makes the dispatch fail
with an error that is not a not-found error. -/
theorem deleteOrphanedReplica_failed (oc : World) (orphan : Orphan) (e : Effect) (err : GoError)
    (hmem : e ∈ (deleteOrphanedReplica oc orphan).2) (hfail : failedDelete oc e = some err) :
    ∃ err1, (deleteOrphanedReplica oc orphan).1 = some err1 ∧ IsNotFound err1 = false := by
  rcases deleteOrphanedReplica_effects oc orphan e hmem with ⟨hdt, he⟩ | ⟨hdt, he | he⟩
  · subst he
    simp only [failedDelete] at hfail
    unfold deleteOrphanedReplica
    simp only [hdt, if_true]
    cases h0 : oc.DeletePath (filepathJoin [mapIndex orphan.spec.parameters OrphanDiskPath,
        "replicas", mapIndex orphan.spec.parameters OrphanDataName]) with
    | none => simp [h0] at hfail
    | some err0 =>
      by_cases hnf : IsNotFound err0 = true
      · simp [h0, hnf] at hfail
      · refine ⟨_, rfl, ?_⟩
        rw [withMessage_IsNotFound]
        simpa using hnf
  · subst he
    simp [failedDelete] at hfail
  · subst he
    have hblock : (deleteOrphanedReplica oc orphan) =
        DeleteV2ReplicaInstance oc (mapIndex orphan.spec.parameters OrphanDiskName)
          (mapIndex orphan.spec.parameters OrphanDiskUUID) ""
          (mapIndex orphan.spec.parameters OrphanDataName) := by
      unfold deleteOrphanedReplica
      simp only [hdt]
      have : ¬ DiskTypeBlock = DiskTypeFilesystem := by decide
      simp [this]
    rw [hblock] at hmem ⊢
    simp only [failedDelete] at hfail
    cases h0 : oc.DiskReplicaInstanceDelete DiskTypeBlock (mapIndex orphan.spec.parameters OrphanDiskName)
        (mapIndex orphan.spec.parameters OrphanDiskUUID) ""
        (mapIndex orphan.spec.parameters OrphanDataName) with
    | none => simp [h0] at hfail
    | some err0 =>
      by_cases hnf : (oc.ErrorIsNotFound err0 || IsNotFound err0) = true
      · simp [h0, hnf] at hfail
      · simp only [Bool.or_eq_true, not_or, Bool.not_eq_true] at hnf
        refine ⟨_, DeleteV2ReplicaInstance_failed oc _ _ _ _ err0 hmem h0 hnf.1, ?_⟩
        rw [withMessage_IsNotFound]
        exact hnf.2

/-- A physical delete that failed with an error other than not-found makes the cleanup fail. -/
theorem cleanupOrphanedData_failed (oc : World) (orphan : Orphan) (e : Effect) (err : GoError)
    (hmem : e ∈ (cleanupOrphanedData oc orphan).effects) (hfail : failedDelete oc e = some err) :
    (cleanupOrphanedData oc orphan).err ≠ none := by
  by_cases hpre : orphan.spec.nodeID = oc.controllerID ∧
      (GetCondition orphan.status.conditions OrphanConditionTypeDataCleanable).status =
        ConditionStatusTrue
  · rw [cleanupOrphanedData_effects_run oc orphan hpre.1 hpre.2] at hmem
    by_cases ht : orphan.spec.type = OrphanTypeReplica
    · simp only [ht, if_true] at hmem
      obtain ⟨err1, h1, h2⟩ := deleteOrphanedReplica_failed oc orphan e err hmem hfail
      rw [cleanupOrphanedData_run oc orphan hpre.1 hpre.2]
      simp only [ht, if_true, h1, h2]
      simp [cleanupDeferred_some_err]
    · simp [ht] at hmem
  · rw [cleanupOrphanedData_skip oc orphan hpre] at hmem
    simp at hmem

/-- The cleanup never removes the finalizer itself. -/
theorem cleanupOrphanedData_no_finalizer (oc : World) (orphan : Orphan) :
    (cleanupOrphanedData oc orphan).effects.any Effect.isRemoveFinalizer = false := by
  rw [List.any_eq_false]
  intro e hmem
  by_cases hpre : orphan.spec.nodeID = oc.controllerID ∧
      (GetCondition orphan.status.conditions OrphanConditionTypeDataCleanable).status =
        ConditionStatusTrue
  · rw [cleanupOrphanedData_effects_run oc orphan hpre.1 hpre.2] at hmem
    by_cases ht : orphan.spec.type = OrphanTypeReplica
    · simp only [ht, if_true] at hmem
      rcases deleteOrphanedReplica_effects oc orphan e hmem with ⟨_, he⟩ | ⟨_, he | he⟩ <;>
        subst he <;> simp [Effect.isRemoveFinalizer]
    · simp [ht] at hmem
  · rw [cleanupOrphanedData_skip oc orphan hpre] at hmem
    simp at hmem

/-- The ownership step makes status writes only. -/
theorem claimOwnership_effects (oc : World) (fetched orphan : Orphan) (done : List Effect)
    (h : claimOwnership oc fetched = .inr (orphan, done)) :
    done.any Effect.isRemoveFinalizer = false := by
  unfold claimOwnership at h
  simp only at h
  split at h
  · split at h
    · split at h <;> simp at h
    · simp only [Sum.inr.injEq, Prod.mk.injEq] at h
      rw [← h.2]
      rfl
  · simp only [Sum.inr.injEq, Prod.mk.injEq] at h
    rw [← h.2]
    rfl

/-- A pass that gets through the fetch, the responsibility check and the ownership step is the
deletion branch or the normal branch. -/
theorem reconcile_branch (oc : World) (orphanName : String) (fetched orphan : Orphan)
    (done : List Effect)
    (hget : oc.GetOrphan orphanName = .ok fetched)
    (hresp : isResponsibleFor oc fetched = true)
    (hclaim : claimOwnership oc fetched = .inr (orphan, done)) :
    reconcile oc orphanName =
      if !timeIsZero orphan.deletionTimestamp then reconcileDeletion oc orphan done
      else reconcileNormal oc orphan done := by
  unfold reconcile
  simp [hget, hresp, hclaim]

/-! ## Facts about the condition engine -/

/-- The deferred function of `updateDataCleanableCondition` writes the reason of the body. -/
theorem updateDataCleanableCondition_ok (oc : World) (k : Nat) (orphan : Orphan) (reason : String)
    (h : dataCleanableReason oc orphan = .ok reason) :
    updateDataCleanableCondition oc k orphan =
      .ok { orphan with status := { orphan.status with
        conditions := SetCondition orphan.status.conditions OrphanConditionTypeDataCleanable
          (if reason ≠ "" then ConditionStatusFalse else ConditionStatusTrue) reason ""
          (oc.Now k) } } := by
  unfold updateDataCleanableCondition
  rw [h]

/-- When `updateDataCleanableCondition` returns an orphan, the body returned a reason. -/
theorem updateDataCleanableCondition_reason (oc : World) (k : Nat) (orphan updated : Orphan)
    (h : updateDataCleanableCondition oc k orphan = .ok updated) :
    ∃ reason, dataCleanableReason oc orphan = .ok reason := by
  unfold updateDataCleanableCondition at h
  cases hr : dataCleanableReason oc orphan with
  | error err => simp [hr] at h
  | ok reason => exact ⟨reason, rfl⟩

/-- The DataCleanable condition after `updateDataCleanableCondition`. -/
theorem conditionAfter_updateDataCleanableCondition (oc : World) (k : Nat) (orphan : Orphan)
    (reason : String) (h : dataCleanableReason oc orphan = .ok reason) :
    conditionAfter (updateDataCleanableCondition oc k orphan) OrphanConditionTypeDataCleanable =
      some (if reason ≠ "" then ConditionStatusFalse else ConditionStatusTrue, reason, "") := by
  rw [updateDataCleanableCondition_ok oc k orphan reason h]
  simp only [conditionAfter, GetCondition_SetCondition, if_true]

/-- On a Replica orphan the body of `updateDataCleanableCondition` follows the table. -/
theorem dataCleanableReason_table (oc : World) (orphan : Orphan) (status reason : String)
    (htype : orphan.spec.type = OrphanTypeReplica)
    (htable : dataCleanableTable oc orphan = some (status, reason)) :
    dataCleanableReason oc orphan = .ok reason ∧
    status = (if reason ≠ "" then ConditionStatusFalse else ConditionStatusTrue) := by
  unfold dataCleanableTable at htable
  unfold dataCleanableReason
  cases hdown : oc.IsNodeDownOrDeletedOrMissingManager orphan.spec.nodeID with
  | error err => simp [hdown] at htable
  | ok isUnavailable =>
    cases isUnavailable with
    | true =>
      simp only [hdown, Option.some.injEq, Prod.mk.injEq] at htable
      obtain ⟨rfl, rfl⟩ := htable
      exact ⟨by simp, by decide⟩
    | false =>
      simp only [hdown] at htable
      cases hnode : oc.GetNode orphan.spec.nodeID with
      | error err =>
        simp only [hnode] at htable
        by_cases hnf : IsNotFound err = true
        · simp only [hnf, if_true, Option.some.injEq, Prod.mk.injEq] at htable
          obtain ⟨rfl, rfl⟩ := htable
          exact ⟨by simp [hnf], by decide⟩
        · simp [hnf] at htable
      | ok node =>
        simp only [hnode] at htable
        by_cases hev : node.spec.evictionRequested = true
        · simp only [hev, if_true, Option.some.injEq, Prod.mk.injEq] at htable
          obtain ⟨rfl, rfl⟩ := htable
          exact ⟨by simp [hev], by decide⟩
        · simp only [hev] at htable
          cases hdisk : oc.GetReadyDisk node.name (mapIndex orphan.spec.parameters OrphanDiskUUID) with
          | error err => simp [hdisk] at htable
          | ok diskName =>
            simp only [hdisk, Bool.false_eq_true, if_false] at htable
            simp only [Bool.false_eq_true, if_false, hev, htype, if_true,
              checkOrphanedReplicaDataCleanable, hdisk]
            by_cases hch : diskName ≠ mapIndex orphan.spec.parameters OrphanDiskName ∨
                (diskIndex node.spec.disks diskName).path ≠
                  mapIndex orphan.spec.parameters OrphanDiskPath
            · simp only [hch, if_true, Option.some.injEq, Prod.mk.injEq] at htable
              obtain ⟨rfl, rfl⟩ := htable
              exact ⟨by simp only [hch, if_true], by decide⟩
            · simp only [hch, if_false] at htable
              by_cases hde : (diskIndex node.spec.disks diskName).evictionRequested = true
              · simp only [hde, if_true, Option.some.injEq, Prod.mk.injEq] at htable
                obtain ⟨rfl, rfl⟩ := htable
                exact ⟨by simp only [hch, if_false, hde, if_true], by decide⟩
              · simp only [hde, if_false, Option.some.injEq, Prod.mk.injEq] at htable
                obtain ⟨rfl, rfl⟩ := htable
                exact ⟨by simp [hch, hde], by decide⟩

/-- An empty reason on a Replica orphan: the node is available and not eviction-requested, a
ready disk that was found is the disk of the orphan and not eviction-requested, and a ready-disk
lookup that failed did not report that the disk cannot be found. -/
theorem dataCleanableReason_empty (oc : World) (orphan : Orphan)
    (htype : orphan.spec.type = OrphanTypeReplica)
    (h : dataCleanableReason oc orphan = .ok "") :
    oc.IsNodeDownOrDeletedOrMissingManager orphan.spec.nodeID = .ok false ∧
    ∃ node, oc.GetNode orphan.spec.nodeID = .ok node ∧ node.spec.evictionRequested = false ∧
      (∀ diskName,
        oc.GetReadyDisk node.name (mapIndex orphan.spec.parameters OrphanDiskUUID) = .ok diskName →
        diskName = mapIndex orphan.spec.parameters OrphanDiskName ∧
        (diskIndex node.spec.disks diskName).path = mapIndex orphan.spec.parameters OrphanDiskPath ∧
        (diskIndex node.spec.disks diskName).evictionRequested = false) ∧
      (∀ err,
        oc.GetReadyDisk node.name (mapIndex orphan.spec.parameters OrphanDiskUUID) = .error err →
        stringsContains err.text "cannot find the ready disk" = false) := by
  have hU : OrphanConditionTypeDataCleanableReasonNodeUnavailable ≠ "" := by decide
  have hN : OrphanConditionTypeDataCleanableReasonNodeEvicted ≠ "" := by decide
  have hI : OrphanConditionTypeDataCleanableReasonDiskInvalid ≠ "" := by decide
  have hC : OrphanConditionTypeDataCleanableReasonDiskChanged ≠ "" := by decide
  have hE : OrphanConditionTypeDataCleanableReasonDiskEvicted ≠ "" := by decide
  unfold dataCleanableReason at h
  cases hdown : oc.IsNodeDownOrDeletedOrMissingManager orphan.spec.nodeID with
  | error err => simp [hdown] at h
  | ok isUnavailable =>
    cases isUnavailable with
    | true => simp [hdown, hU] at h
    | false =>
      refine ⟨rfl, ?_⟩
      simp only [hdown, Bool.false_eq_true, if_false] at h
      cases hnode : oc.GetNode orphan.spec.nodeID with
      | error err =>
        simp only [hnode] at h
        by_cases hnf : IsNotFound err = true
        · simp [hnf, hU] at h
        · simp [hnf] at h
      | ok node =>
        simp only [hnode] at h
        by_cases hev : node.spec.evictionRequested = true
        · simp [hev, hN] at h
        · simp only [hev, if_false, htype, if_true, Except.ok.injEq] at h
          refine ⟨node, rfl, by simpa using hev, ?_, ?_⟩
          · intro diskName hdisk
            unfold checkOrphanedReplicaDataCleanable at h
            simp only [hdisk] at h
            by_cases hch : diskName ≠ mapIndex orphan.spec.parameters OrphanDiskName ∨
                (diskIndex node.spec.disks diskName).path ≠
                  mapIndex orphan.spec.parameters OrphanDiskPath
            · simp [hch, hC] at h
            · simp only [hch, if_false] at h
              by_cases hde : (diskIndex node.spec.disks diskName).evictionRequested = true
              · simp [hde, hE] at h
              · simp only [ne_eq, not_or, not_not] at hch
                exact ⟨hch.1, hch.2, by simpa using hde⟩
          · intro err hdisk
            unfold checkOrphanedReplicaDataCleanable at h
            simp only [hdisk] at h
            by_cases hc : stringsContains err.text "cannot find the ready disk" = true
            · simp [hc, hI] at h
            · simpa using hc

/-- The orphan `updateDataCleanableCondition` returns differs from its argument in the
DataCleanable condition only. -/
theorem updateDataCleanableCondition_shape (oc : World) (k : Nat) (orphan updated : Orphan)
    (h : updateDataCleanableCondition oc k orphan = .ok updated) :
    ∃ reason, dataCleanableReason oc orphan = .ok reason ∧
      updated = { orphan with status := { orphan.status with
        conditions := SetCondition orphan.status.conditions OrphanConditionTypeDataCleanable
          (if reason ≠ "" then ConditionStatusFalse else ConditionStatusTrue) reason ""
          (oc.Now k) } } := by
  obtain ⟨reason, hreason⟩ := updateDataCleanableCondition_reason oc k orphan updated h
  rw [updateDataCleanableCondition_ok oc k orphan reason hreason] at h
  simp only [Except.ok.injEq] at h
  exact ⟨reason, hreason, h.symm⟩

/-- Setting the DataCleanable condition does not touch the Error condition. -/
theorem GetCondition_Error_SetCondition_DataCleanable (cs : List Condition) (v r m now : String) :
    GetCondition (SetCondition cs OrphanConditionTypeDataCleanable v r m now)
      OrphanConditionTypeError = GetCondition cs OrphanConditionTypeError := by
  rw [GetCondition_SetCondition]
  have : ¬ OrphanConditionTypeDataCleanable = OrphanConditionTypeError := by decide
  simp [this]

/-- The body of `updateDataCleanableCondition` reads the lookups and the spec of the orphan only. -/
theorem dataCleanableReason_congr (oc1 oc2 : World) (o1 o2 : Orphan)
    (hdown : oc2.IsNodeDownOrDeletedOrMissingManager = oc1.IsNodeDownOrDeletedOrMissingManager)
    (hnode : oc2.GetNode = oc1.GetNode) (hdisk : oc2.GetReadyDisk = oc1.GetReadyDisk)
    (hspec : o2.spec = o1.spec) :
    dataCleanableReason oc2 o2 = dataCleanableReason oc1 o1 := by
  simp only [dataCleanableReason, checkOrphanedReplicaDataCleanable, hdown, hnode, hdisk, hspec]

/-- Setting a condition that is the first of its type to what it holds changes nothing. -/
theorem SetCondition_of_fixed (cs : List Condition) (c : Condition) (t v r m now : String)
    (hc : replaceCondition cs c = some cs) (ht : c.type = t) (hv : c.status = v)
    (hr : c.reason = r) (hm : c.message = m) : SetCondition cs t v r m now = cs := by
  subst ht hv hr hm
  exact SetCondition_same cs c now hc

/-- Setting a condition a second time changes nothing, whatever the clock reads. -/
theorem SetCondition_again (cs : List Condition) (t v r m now now2 : String) :
    SetCondition (SetCondition cs t v r m now) t v r m now2 = SetCondition cs t v r m now := by
  apply SetCondition_of_fixed _ (GetCondition (SetCondition cs t v r m now) t) _ _ _ _ _
    (SetCondition_fixed cs t v r m now) <;>
  simp [GetCondition_SetCondition, GetCondition_type]

/-- Setting a condition a second time changes nothing when a condition of another type was set
in between. -/
theorem SetCondition_again_other (cs : List Condition) (t v r m now t2 v2 r2 m2 now2 now3 : String)
    (hne : t2 ≠ t) :
    SetCondition (SetCondition (SetCondition cs t v r m now) t2 v2 r2 m2 now2) t v r m now3 =
      SetCondition (SetCondition cs t v r m now) t2 v2 r2 m2 now2 := by
  apply SetCondition_of_fixed _ (GetCondition (SetCondition cs t v r m now) t) _ _ _ _ _
    (SetCondition_keeps _ _ _ _ _ _ _ (by simpa [GetCondition_type] using hne)
      (SetCondition_fixed cs t v r m now)) <;>
  simp [GetCondition_SetCondition, GetCondition_type]

/-! ## Facts about the queue -/

/-- A key whose sync fails every time and that can be requeued `n` more times is requeued `n`
times and then forgotten. -/
theorem handleErrRepeat_calls (maxRetries : Nat) (failure : GoError) (key : String) (n : Nat) :
    ∀ queue : Queue, queue.NumRequeues key + n = maxRetries →
      (handleErrRepeat maxRetries failure key (n + 1) queue).calls =
        QueueCall.Forget key :: (List.replicate n (QueueCall.AddRateLimited key) ++ queue.calls) := by
  induction n with
  | zero =>
    intro queue h
    have : ¬ queue.NumRequeues key < maxRetries := by omega
    simp [handleErrRepeat, handleErr, this, Queue.Forget]
  | succ n ih =>
    intro queue h
    have hlt : queue.NumRequeues key < maxRetries := by omega
    have hstep : handleErr maxRetries queue (some failure) key = queue.AddRateLimited key := by
      simp [handleErr, hlt]
    rw [handleErrRepeat, hstep, ih (queue.AddRateLimited key)
      (by simp only [Queue.NumRequeues, Queue.AddRateLimited, if_true] at *; omega)]
    simp [Queue.AddRateLimited, List.replicate_succ', List.append_assoc]

/-! ## Facts about paths -/

theorem splitSlash_ne_nil (cs : List Char) : splitSlash cs ≠ [] := by
  cases cs with
  | nil => simp [splitSlash]
  | cons c cs =>
    unfold splitSlash
    split
    · simp
    · split <;> simp

theorem splitSlash_append (xs ys : List Char) :
    splitSlash (xs ++ '/' :: ys) = splitSlash xs ++ splitSlash ys := by
  induction xs with
  | nil =>
    cases h : splitSlash ys with
    | nil => exact absurd h (splitSlash_ne_nil ys)
    | cons seg segs => simp [splitSlash, h]
  | cons c xs ih =>
    cases h : splitSlash xs with
    | nil => exact absurd h (splitSlash_ne_nil xs)
    | cons seg segs =>
      rw [List.cons_append, splitSlash, ih, h]
      simp only [List.cons_append]
      rw [splitSlash, h]
      by_cases hc : c = '/' <;> simp [hc]

theorem splitSlash_element (name : List Char) (h : '/' ∉ name) : splitSlash name = [name] := by
  induction name with
  | nil => rfl
  | cons c cs ih =>
    simp only [List.mem_cons, not_or] at h
    rw [splitSlash, ih h.2]
    have : ¬ c = '/' := fun e => h.1 e.symm
    simp [this]

theorem intercalate_go_snoc (sep acc x : String) (l : List String) :
    String.intercalate.go acc sep (l ++ [x]) = String.intercalate.go acc sep l ++ sep ++ x := by
  induction l generalizing acc with
  | nil => simp [String.intercalate.go]
  | cons a l ih => simp [String.intercalate.go, ih]

theorem intercalate_snoc (sep a x : String) (l : List String) :
    String.intercalate sep (a :: l ++ [x]) = String.intercalate sep (a :: l) ++ sep ++ x := by
  simp [String.intercalate, intercalate_go_snoc]

theorem intercalate_snoc_of_ne_nil (sep x : String) (l : List String) (h : l ≠ []) :
    String.intercalate sep (l ++ [x]) = String.intercalate sep l ++ sep ++ x := by
  cases l with
  | nil => exact absurd rfl h
  | cons a l => exact intercalate_snoc sep a x l

/-- The joined text of a list of elements ends with its last element. -/
theorem intercalate_snoc_data (sep x : String) (l : List String) :
    ∃ front : List Char, (String.intercalate sep (l ++ [x])).data = front ++ x.data := by
  cases l with
  | nil => exact ⟨[], by simp [String.intercalate, String.intercalate.go]⟩
  | cons a l =>
    refine ⟨(String.intercalate sep (a :: l) ++ sep).data, ?_⟩
    rw [intercalate_snoc]
    simp

theorem filepathClean_eq (path : String) (h : path ≠ "") :
    filepathClean path = cleanOutput (decide (path.data.head? = some '/')) (splitSlash path.data) := by
  unfold filepathClean cleanOutput
  simp only [h, if_false, decide_eq_true_eq]

theorem cleanStep_element (rooted : Bool) (stack : List (List Char)) (elem : List Char)
    (h1 : elem ≠ []) (h2 : elem ≠ ['.']) (h3 : elem ≠ ['.', '.']) :
    cleanStep rooted stack elem = elem :: stack := by
  unfold cleanStep
  simp [h1, h2, h3]

/-- A text that ends with a non-empty element is not empty. -/
theorem append_intercalate_ne_empty (p x : String) (l : List String) (hx : x.data ≠ []) :
    p ++ String.intercalate "/" (l ++ [x]) ≠ "" := by
  intro heq
  obtain ⟨fr, hfr⟩ := intercalate_snoc_data "/" x l
  have hdata := congrArg String.data heq
  simp only [String.data_append, hfr] at hdata
  have hlen := congrArg List.length hdata
  have hpos : 0 < x.data.length := List.length_pos.mpr hx
  have h0 : ("" : String).data = [] := rfl
  simp only [List.length_append, h0, List.length_nil] at hlen
  omega

/-- Cleaning a path whose last two elements are plain elements: the last element is appended
to the cleaned path without it. -/
theorem cleanOutput_snoc (rooted : Bool) (front : List (List Char)) (dir name : List Char)
    (hd1 : dir ≠ []) (hd2 : dir ≠ ['.']) (hd3 : dir ≠ ['.', '.'])
    (hn1 : name ≠ []) (hn2 : name ≠ ['.']) (hn3 : name ≠ ['.', '.']) :
    cleanOutput rooted (front ++ [dir, name]) =
      cleanOutput rooted (front ++ [dir]) ++ "/" ++ String.mk name := by
  unfold cleanOutput
  simp only [List.foldl_append, List.foldl_cons, List.foldl_nil]
  rw [cleanStep_element rooted _ dir hd1 hd2 hd3, cleanStep_element rooted _ name hn1 hn2 hn3]
  simp only [List.reverse_cons, List.map_append, List.map_cons, List.map_nil]
  have h2 := append_intercalate_ne_empty (if rooted = true then "/" else "") (String.mk dir)
    (List.map String.mk (List.foldl (cleanStep rooted) [] front).reverse) hd1
  have h3 := append_intercalate_ne_empty (if rooted = true then "/" else "") (String.mk name)
    (List.map String.mk (List.foldl (cleanStep rooted) [] front).reverse ++ [String.mk dir]) hn1
  simp only [h2, h3, if_false]
  rw [intercalate_snoc_of_ne_nil "/" (String.mk name) _ (by simp)]
  simp only [String.append_assoc]

/-- For a single path element as the last element, the join is the join without it, a slash
and the element. -/
theorem filepathJoin_element (diskPath name : String) (h : isPathElement name = true) :
    filepathJoin [diskPath, "replicas", name] =
      filepathJoin [diskPath, "replicas"] ++ "/" ++ name := by
  simp only [isPathElement, Bool.and_eq_true, decide_eq_true_eq, Bool.not_eq_true',
    List.contains_eq_any_beq, List.any_eq_false, beq_iff_eq] at h
  obtain ⟨⟨⟨hn1, hn2⟩, hn3⟩, hn4⟩ := h
  have hslash : '/' ∉ name.data := fun hm => hn4 '/' hm rfl
  have hR1 : "replicas".data ≠ [] := by decide
  have hR2 : "replicas".data ≠ ['.'] := by decide
  have hR3 : "replicas".data ≠ ['.', '.'] := by decide
  have hRs : splitSlash "replicas".data = ["replicas".data] := by decide
  have hsep : ("/" : String).data = ['/'] := rfl
  have hname : String.mk name.data = name := rfl
  by_cases hd : diskPath = ""
  · subst hd
    have e3 : filepathJoin ["", "replicas", name] =
        filepathClean ("replicas" ++ "/" ++ name) := by
      simp [filepathJoin, String.intercalate, String.intercalate.go]
    have e2 : filepathJoin ["", "replicas"] = filepathClean "replicas" := by
      simp [filepathJoin, String.intercalate, String.intercalate.go]
    have hne3 : ("replicas" ++ "/" ++ name : String) ≠ "" := by
      intro heq
      have := congrArg (fun s => s.data.length) heq
      simp [String.data_append] at this
    rw [e3, e2, filepathClean_eq _ hne3, filepathClean_eq "replicas" (by decide)]
    have hs3 : splitSlash ("replicas" ++ "/" ++ name : String).data =
        [] ++ ["replicas".data, name.data] := by
      simp only [String.data_append, hsep, List.append_assoc, List.singleton_append]
      rw [splitSlash_append, hRs, splitSlash_element _ hslash]
      rfl
    have hs2 : splitSlash ("replicas" : String).data = [] ++ ["replicas".data] := hRs
    have hh3 : decide (("replicas" ++ "/" ++ name : String).data.head? = some '/') = false := by
      simp only [String.data_append]
      rfl
    have hh2 : decide (("replicas" : String).data.head? = some '/') = false := by decide
    rw [hs3, hs2, hh3, hh2,
      cleanOutput_snoc false [] _ _ hR1 hR2 hR3 hn1 hn2 hn3, hname]
  · have hdd : diskPath.data ≠ [] := fun e => hd (String.ext e)
    obtain ⟨c, cs, hcs⟩ := List.exists_cons_of_ne_nil hdd
    have e3 : filepathJoin [diskPath, "replicas", name] =
        filepathClean (diskPath ++ "/" ++ "replicas" ++ "/" ++ name) := by
      simp [filepathJoin, hd, String.intercalate, String.intercalate.go]
    have e2 : filepathJoin [diskPath, "replicas"] = filepathClean (diskPath ++ "/" ++ "replicas") := by
      simp [filepathJoin, hd, String.intercalate, String.intercalate.go]
    have hne3 : (diskPath ++ "/" ++ "replicas" ++ "/" ++ name : String) ≠ "" := by
      intro heq
      have := congrArg (fun s => s.data.length) heq
      simp [String.data_append] at this
    have hne2 : (diskPath ++ "/" ++ "replicas" : String) ≠ "" := by
      intro heq
      have := congrArg (fun s => s.data.length) heq
      simp [String.data_append] at this
    rw [e3, e2, filepathClean_eq _ hne3, filepathClean_eq _ hne2]
    have hs3 : splitSlash (diskPath ++ "/" ++ "replicas" ++ "/" ++ name : String).data =
        splitSlash diskPath.data ++ ["replicas".data, name.data] := by
      have hdata : (diskPath ++ "/" ++ "replicas" ++ "/" ++ name : String).data =
          diskPath.data ++ '/' :: ("replicas".data ++ '/' :: name.data) := by
        simp [String.data_append]
      rw [hdata, splitSlash_append, splitSlash_append, hRs, splitSlash_element _ hslash]
      rfl
    have hs2 : splitSlash (diskPath ++ "/" ++ "replicas" : String).data =
        splitSlash diskPath.data ++ ["replicas".data] := by
      have hdata : (diskPath ++ "/" ++ "replicas" : String).data =
          diskPath.data ++ '/' :: "replicas".data := by
        simp [String.data_append]
      rw [hdata, splitSlash_append, hRs]
    have hh3 : decide ((diskPath ++ "/" ++ "replicas" ++ "/" ++ name : String).data.head? =
        some '/') = decide (diskPath.data.head? = some '/') := by
      simp [String.data_append, hcs]
    have hh2 : decide ((diskPath ++ "/" ++ "replicas" : String).data.head? = some '/') =
        decide (diskPath.data.head? = some '/') := by
      simp [String.data_append, hcs]
    rw [hs3, hs2, hh3, hh2, cleanOutput_snoc _ _ _ _ hR1 hR2 hR3 hn1 hn2 hn3, hname]


/-- A path that is a directory, a slash and a non-empty name lies strictly below the directory. -/
theorem isStrictDescendant_append (dir name : String) (h : name.data ≠ []) :
    isStrictDescendant dir (dir ++ "/" ++ name) = true := by
  have hsep : ("/" : String).data = ['/'] := rfl
  have hpos : 0 < name.data.length := List.length_pos.mpr h
  simp only [isStrictDescendant, String.data_append, hsep, Bool.and_eq_true,
    List.isPrefixOf_iff_prefix, decide_eq_true_eq, List.length_append, List.length_singleton]
  exact ⟨List.prefix_append _ _, by omega⟩

/-! ## The claims -/

/-- C1: `cleanupOrphanedData` issues a physical delete (a `DeletePath` or a
`DiskReplicaInstanceDelete`) only if the node of the orphan is the controller and the
DataCleanable condition has status True; in every other case it makes no call at all, returns
nil and leaves the orphan as it is. -/
theorem cleanupOrphanedData_gated (oc : World) (orphan : Orphan) :
    ((∃ e ∈ (cleanupOrphanedData oc orphan).effects, e.isPhysicalDelete = true) →
      orphan.spec.nodeID = oc.controllerID ∧
      (GetCondition orphan.status.conditions OrphanConditionTypeDataCleanable).status =
        ConditionStatusTrue) ∧
    (¬ (orphan.spec.nodeID = oc.controllerID ∧
        (GetCondition orphan.status.conditions OrphanConditionTypeDataCleanable).status =
          ConditionStatusTrue) →
      (cleanupOrphanedData oc orphan).effects = [] ∧
      (cleanupOrphanedData oc orphan).err = none ∧
      (cleanupOrphanedData oc orphan).orphan = orphan) := by
  constructor
  · intro ⟨e, hmem, _⟩
    by_contra hpre
    rw [cleanupOrphanedData_skip oc orphan hpre] at hmem
    simp at hmem
  · intro hpre
    rw [cleanupOrphanedData_skip oc orphan hpre]
    exact ⟨rfl, rfl, rfl⟩

/-- An instance of C1: the delete of a cleanable orphan on the node of the controller, and
the skip for an orphan without conditions. -/
theorem cleanupOrphanedData_gated_witness :
    ((∃ e ∈ (cleanupOrphanedData exampleWorld fsOrphan).effects, e.isPhysicalDelete = true) ∧
      fsOrphan.spec.nodeID = exampleWorld.controllerID) ∧
    (cleanupOrphanedData exampleWorld (exampleOrphan DiskTypeFilesystem [])).effects = [] :=
  ⟨⟨by decide, ((cleanupOrphanedData_gated exampleWorld fsOrphan).1 (by decide)).1⟩,
   ((cleanupOrphanedData_gated exampleWorld (exampleOrphan DiskTypeFilesystem [])).2 (by decide)).1⟩

/-- C2: in a pass over an orphan with a deletion timestamp that got through the responsibility
check and the ownership step, `RemoveFinalizerForOrphan` is called if and only if
`cleanupOrphanedData` returned nil; and when a physical delete the cleanup issued failed with an
error other than not-found, the finalizer is not removed and `reconcile` returns an error. -/
theorem reconcile_finalizer_iff_cleanup_nil (oc : World) (orphanName : String)
    (fetched orphan : Orphan) (done : List Effect)
    (hget : oc.GetOrphan orphanName = .ok fetched)
    (hresp : isResponsibleFor oc fetched = true)
    (hclaim : claimOwnership oc fetched = .inr (orphan, done))
    (hdel : timeIsZero orphan.deletionTimestamp = false) :
    ((reconcile oc orphanName).effects.any Effect.isRemoveFinalizer = true ↔
      (cleanupOrphanedData oc orphan).err = none) ∧
    (∀ e err, e ∈ (cleanupOrphanedData oc orphan).effects → failedDelete oc e = some err →
      (reconcile oc orphanName).effects.any Effect.isRemoveFinalizer = false ∧
      (reconcile oc orphanName).err ≠ none) := by
  have hrec : reconcile oc orphanName = reconcileDeletion oc orphan done := by
    rw [reconcile_branch oc orphanName fetched orphan done hget hresp hclaim]
    simp [hdel]
  have hdone := claimOwnership_effects oc fetched orphan done hclaim
  have hclean := cleanupOrphanedData_no_finalizer oc orphan
  have hiff : (reconcileDeletion oc orphan done).effects.any Effect.isRemoveFinalizer = true ↔
      (cleanupOrphanedData oc orphan).err = none := by
    unfold reconcileDeletion
    cases herr : (cleanupOrphanedData oc orphan).err with
    | none => simp [herr, List.any_append, Effect.isRemoveFinalizer]
    | some err0 =>
      simp only [herr, List.any_append, hdone, hclean, Bool.or_false]
      simp
  rw [hrec]
  refine ⟨hiff, ?_⟩
  intro e err hmem hfail
  have hne := cleanupOrphanedData_failed oc orphan e err hmem hfail
  constructor
  · cases hany : (reconcileDeletion oc orphan done).effects.any Effect.isRemoveFinalizer with
    | false => rfl
    | true => exact absurd (hiff.mp hany) hne
  · unfold reconcileDeletion
    cases herr : (cleanupOrphanedData oc orphan).err with
    | none => exact absurd herr hne
    | some err0 => simp [herr]

/-- An instance of C2: the disk service fails with a transient error, the finalizer stays. -/
theorem reconcile_finalizer_iff_cleanup_nil_witness :
    (reconcile (worldWith brokenDiskService blockOrphan) "orphan-1").effects.any
        Effect.isRemoveFinalizer = false ∧
    (reconcile (worldWith brokenDiskService blockOrphan) "orphan-1").err ≠ none :=
  (reconcile_finalizer_iff_cleanup_nil (worldWith brokenDiskService blockOrphan) "orphan-1"
    blockOrphan blockOrphan [] rfl rfl (by decide) (by decide)).2
    (Effect.DiskReplicaInstanceDelete "block" "disk-1" "uuid-1" "" "pvc-1-r-abc") transientError
    (by decide) (by decide)

/-- The errors the cleanup takes for not-found: for a Replica orphan inside both preconditions,
when the delete of the host path comes back with an error that has the API status not-found
(filesystem backend), or the disk service is reached and its `DiskReplicaInstanceDelete` comes
back with an error that `types.ErrorIsNotFound` or `apierrors.IsNotFound` takes for not-found
(block backend), `cleanupOrphanedData` returns nil and leaves the orphan, so also its Error
condition, as it is; the delete was issued. -/
theorem cleanupOrphanedData_notFound_is_success (oc : World) (orphan : Orphan) (err : GoError)
    (hnode : orphan.spec.nodeID = oc.controllerID)
    (hclean : (GetCondition orphan.status.conditions OrphanConditionTypeDataCleanable).status =
      ConditionStatusTrue)
    (htype : orphan.spec.type = OrphanTypeReplica)
    (h : (mapLookup orphan.spec.parameters OrphanDiskType = some DiskTypeFilesystem ∧
          oc.DeletePath (filepathJoin [mapIndex orphan.spec.parameters OrphanDiskPath, "replicas",
            mapIndex orphan.spec.parameters OrphanDataName]) = some err ∧
          IsNotFound err = true) ∨
         (mapLookup orphan.spec.parameters OrphanDiskType = some DiskTypeBlock ∧
          (∃ im, oc.GetRunningInstanceManagerByNodeRO oc.controllerID DataEngineTypeV2 = .ok im ∧
            oc.NewDiskServiceClient im = none) ∧
          oc.DiskReplicaInstanceDelete DiskTypeBlock (mapIndex orphan.spec.parameters OrphanDiskName)
            (mapIndex orphan.spec.parameters OrphanDiskUUID) ""
            (mapIndex orphan.spec.parameters OrphanDataName) = some err ∧
          (oc.ErrorIsNotFound err = true ∨ IsNotFound err = true))) :
    (cleanupOrphanedData oc orphan).err = none ∧
    (cleanupOrphanedData oc orphan).orphan = orphan ∧
    (∃ e ∈ (cleanupOrphanedData oc orphan).effects, e.isPhysicalDelete = true) := by
  rw [cleanupOrphanedData_run oc orphan hnode hclean]
  simp only [htype, if_true]
  rcases h with ⟨hdt, hans, hnf⟩ | ⟨hdt, ⟨im, him, hclient⟩, hans, hnf⟩
  · have hrun : deleteOrphanedReplica oc orphan =
        (some (withMessage err ("failed to delete orphan replica directory " ++
          mapIndex orphan.spec.parameters OrphanDataName ++ " in disk " ++
          mapIndex orphan.spec.parameters OrphanDiskPath)),
         [Effect.DeletePath (filepathJoin [mapIndex orphan.spec.parameters OrphanDiskPath,
           "replicas", mapIndex orphan.spec.parameters OrphanDataName])]) := by
      unfold deleteOrphanedReplica
      simp [hdt, hans, Wrapf]
    rw [hrun]
    simp [withMessage_IsNotFound, hnf, cleanupDeferred_none, Effect.isPhysicalDelete]
  · have hne : ¬ DiskTypeBlock = DiskTypeFilesystem := by decide
    by_cases h1 : oc.ErrorIsNotFound err = true
    · have hrun : deleteOrphanedReplica oc orphan =
          (none, [Effect.DiskReplicaInstanceDelete DiskTypeBlock
            (mapIndex orphan.spec.parameters OrphanDiskName)
            (mapIndex orphan.spec.parameters OrphanDiskUUID) ""
            (mapIndex orphan.spec.parameters OrphanDataName), Effect.Close]) := by
        unfold deleteOrphanedReplica
        simp [hdt, hne, DeleteV2ReplicaInstance, him, hclient, hans, h1, Wrapf]
      rw [hrun]
      simp [cleanupDeferred_none, Effect.isPhysicalDelete]
    · have h2 : IsNotFound err = true := hnf.resolve_left h1
      have hrun : deleteOrphanedReplica oc orphan =
          (some (withMessage err ("cannot delete v2 replica instance " ++
            mapIndex orphan.spec.parameters OrphanDataName)),
           [Effect.DiskReplicaInstanceDelete DiskTypeBlock
            (mapIndex orphan.spec.parameters OrphanDiskName)
            (mapIndex orphan.spec.parameters OrphanDiskUUID) ""
            (mapIndex orphan.spec.parameters OrphanDataName), Effect.Close]) := by
        unfold deleteOrphanedReplica
        simp [hdt, hne, DeleteV2ReplicaInstance, him, hclient, hans, h1, Wrapf]
      rw [hrun]
      simp [withMessage_IsNotFound, h2, cleanupDeferred_none, Effect.isPhysicalDelete]

/-- The disk service does not find the replica instance: the cleanup returns nil. -/
theorem cleanupOrphanedData_notFound_is_success_witness :
    (cleanupOrphanedData missingInstance blockOrphan).err = none ∧
    (cleanupOrphanedData missingInstance blockOrphan).orphan = blockOrphan ∧
    (∃ e ∈ (cleanupOrphanedData missingInstance blockOrphan).effects, e.isPhysicalDelete = true) :=
  cleanupOrphanedData_notFound_is_success missingInstance blockOrphan
    { text := "cannot find replica instance", reason := "" } rfl (by decide) rfl
    (Or.inr ⟨by decide, ⟨"instance-manager-1", rfl, rfl⟩, rfl, Or.inl (by decide)⟩)

/-- C8: for an orphan inside both preconditions whose backend is not recognised (the type is not
Replica, or the disk type parameter is missing, or it is neither filesystem nor block),
`cleanupOrphanedData` makes no call, so no physical delete, and returns an error. -/
theorem cleanupOrphanedData_unrecognised_backend (oc : World) (orphan : Orphan)
    (hnode : orphan.spec.nodeID = oc.controllerID)
    (hclean : (GetCondition orphan.status.conditions OrphanConditionTypeDataCleanable).status =
      ConditionStatusTrue)
    (h : orphan.spec.type ≠ OrphanTypeReplica ∨
         mapLookup orphan.spec.parameters OrphanDiskType = none ∨
         (∃ diskType, mapLookup orphan.spec.parameters OrphanDiskType = some diskType ∧
           diskType ≠ DiskTypeFilesystem ∧ diskType ≠ DiskTypeBlock)) :
    (cleanupOrphanedData oc orphan).effects = [] ∧ (cleanupOrphanedData oc orphan).err ≠ none := by
  rw [cleanupOrphanedData_run oc orphan hnode hclean]
  by_cases htype : orphan.spec.type = OrphanTypeReplica
  · simp only [htype, if_true]
    have hrun : ∃ text, deleteOrphanedReplica oc orphan = (some (fmtErrorf text), []) := by
      unfold deleteOrphanedReplica
      rcases h with h | h | ⟨diskType, hdt, h1, h2⟩
      · exact absurd htype h
      · exact ⟨"failed to get disk type for orphan " ++ orphan.name, by simp [h]⟩
      · exact ⟨"unknown disk type " ++ diskType ++ " for orphan " ++ orphan.name,
          by simp [hdt, h1, h2]⟩
    obtain ⟨text, hrun⟩ := hrun
    rw [hrun]
    simp [fmtErrorf_IsNotFound, cleanupDeferred_effects, cleanupDeferred_some_err]
  · simp [htype, fmtErrorf_IsNotFound, cleanupDeferred_effects, cleanupDeferred_some_err]

/-- An instance of C8: an orphan whose disk type is `nvme`. -/
theorem cleanupOrphanedData_unrecognised_backend_witness :
    (cleanupOrphanedData exampleWorld (exampleOrphan "nvme" [cleanableCondition])).effects = [] ∧
    (cleanupOrphanedData exampleWorld (exampleOrphan "nvme" [cleanableCondition])).err ≠ none :=
  cleanupOrphanedData_unrecognised_backend exampleWorld (exampleOrphan "nvme" [cleanableCondition])
    rfl (by decide) (Or.inr (Or.inr ⟨"nvme", by decide, by decide, by decide⟩))

/-- C4: for a Replica orphan whose lookups succeed, `updateDataCleanableCondition` returns
without error and sets the DataCleanable condition to the status and the reason of the first
matching row of the table (node unavailable or not found, node evicted, disk changed, disk
evicted, otherwise True without a reason), with an empty message; the status is False exactly
when the reason is not empty. -/
theorem updateDataCleanableCondition_table (oc : World) (k : Nat) (orphan : Orphan)
    (status reason : String)
    (htype : orphan.spec.type = OrphanTypeReplica)
    (htable : dataCleanableTable oc orphan = some (status, reason)) :
    conditionAfter (updateDataCleanableCondition oc k orphan) OrphanConditionTypeDataCleanable =
      some (status, reason, "") ∧
    (status = ConditionStatusFalse ↔ reason ≠ "") := by
  obtain ⟨hreason, hstatus⟩ := dataCleanableReason_table oc orphan status reason htype htable
  refine ⟨?_, ?_⟩
  · rw [conditionAfter_updateDataCleanableCondition oc k orphan reason hreason, hstatus]
  · rw [hstatus]
    by_cases hr : reason = ""
    · simp only [hr, ne_eq, not_true_eq_false, if_false, iff_false]
      decide
    · simp [hr]

/-- An instance of C4: the last row of the table, and the row of an evicted node. -/
theorem updateDataCleanableCondition_table_witness :
    (conditionAfter (updateDataCleanableCondition exampleWorld 0 fsOrphan)
        OrphanConditionTypeDataCleanable = some ("True", "", "") ∧
      ("True" = ConditionStatusFalse ↔ "" ≠ "")) ∧
    dataCleanableTable evictedNode fsOrphan = some ("False", "NodeEvicted") :=
  ⟨updateDataCleanableCondition_table exampleWorld 0 fsOrphan "True" "" rfl (by decide), by decide⟩

/-- C5, the claim as it is written fails: a ready-disk lookup that fails because the node is not
ready leaves DataCleanable True on a Replica orphan, and an orphan of another type gets
DataCleanable True without any look at its disk; disk identity is established in neither case. -/
theorem updateDataCleanableCondition_true_without_disk :
    (conditionAfter (updateDataCleanableCondition failingDiskLookup 0 fsOrphan)
        OrphanConditionTypeDataCleanable = some ("True", "", "") ∧
      diskIdentityEstablished failingDiskLookup fsOrphan = false) ∧
    (conditionAfter (updateDataCleanableCondition exampleWorld 0 otherTypeOrphan)
        OrphanConditionTypeDataCleanable = some ("True", "", "") ∧
      diskIdentityEstablished exampleWorld otherTypeOrphan = false) := by
  decide

/-- C5, amended: for a Replica orphan, when `updateDataCleanableCondition` returns without error
and leaves DataCleanable True, the node is available and not eviction-requested, a ready disk
the lookup found for the disk UUID of the orphan has the name and the path of the orphan and is
not eviction-requested, and a lookup that failed did not report "cannot find the ready disk". -/
theorem updateDataCleanableCondition_true_sound (oc : World) (k : Nat) (orphan updated : Orphan)
    (htype : orphan.spec.type = OrphanTypeReplica)
    (h : updateDataCleanableCondition oc k orphan = .ok updated)
    (htrue : (GetCondition updated.status.conditions OrphanConditionTypeDataCleanable).status =
      ConditionStatusTrue) :
    oc.IsNodeDownOrDeletedOrMissingManager orphan.spec.nodeID = .ok false ∧
    ∃ node, oc.GetNode orphan.spec.nodeID = .ok node ∧ node.spec.evictionRequested = false ∧
      (∀ diskName,
        oc.GetReadyDisk node.name (mapIndex orphan.spec.parameters OrphanDiskUUID) = .ok diskName →
        diskName = mapIndex orphan.spec.parameters OrphanDiskName ∧
        (diskIndex node.spec.disks diskName).path = mapIndex orphan.spec.parameters OrphanDiskPath ∧
        (diskIndex node.spec.disks diskName).evictionRequested = false) ∧
      (∀ err,
        oc.GetReadyDisk node.name (mapIndex orphan.spec.parameters OrphanDiskUUID) = .error err →
        stringsContains err.text "cannot find the ready disk" = false) := by
  obtain ⟨reason, hreason⟩ := updateDataCleanableCondition_reason oc k orphan updated h
  rw [updateDataCleanableCondition_ok oc k orphan reason hreason] at h
  simp only [Except.ok.injEq] at h
  subst h
  simp only [GetCondition_SetCondition, if_true] at htrue
  have hempty : reason = "" := by
    by_contra hne
    simp only [ne_eq, hne, not_false_eq_true, if_true] at htrue
    revert htrue
    decide
  subst hempty
  exact dataCleanableReason_empty oc orphan htype hreason

/-- An instance of the amended C5: the example cluster and the filesystem-backed orphan. -/
theorem updateDataCleanableCondition_true_sound_witness :
    exampleWorld.IsNodeDownOrDeletedOrMissingManager fsOrphan.spec.nodeID = .ok false ∧
    ∃ node, exampleWorld.GetNode fsOrphan.spec.nodeID = .ok node ∧
      node.spec.evictionRequested = false ∧
      (∀ diskName,
        exampleWorld.GetReadyDisk node.name (mapIndex fsOrphan.spec.parameters OrphanDiskUUID) =
          .ok diskName →
        diskName = mapIndex fsOrphan.spec.parameters OrphanDiskName ∧
        (diskIndex node.spec.disks diskName).path = mapIndex fsOrphan.spec.parameters OrphanDiskPath ∧
        (diskIndex node.spec.disks diskName).evictionRequested = false) ∧
      (∀ err,
        exampleWorld.GetReadyDisk node.name (mapIndex fsOrphan.spec.parameters OrphanDiskUUID) =
          .error err →
        stringsContains err.text "cannot find the ready disk" = false) :=
  updateDataCleanableCondition_true_sound exampleWorld 0 fsOrphan fsOrphan rfl rfl (by decide)

/-- C6, the claim as it is written fails: an Error condition with status True is still there,
with its message, after `updateConditions` returned nil. -/
theorem updateConditions_keeps_error_true :
    conditionAfter (updateConditions exampleWorld (liveOrphan [errorCondition]))
      OrphanConditionTypeError = some ("True", "", "failed to delete orphan orphan-1 data") := by
  decide

/-- C6, amended: when `updateConditions` returns nil, the Error condition afterwards has status
False with empty reason and message if its status was not True before, and is the condition it
was before if its status was True. -/
theorem updateConditions_error_condition (oc : World) (orphan updated : Orphan)
    (h : updateConditions oc orphan = .ok updated) :
    ((GetCondition orphan.status.conditions OrphanConditionTypeError).status ≠ ConditionStatusTrue →
      (GetCondition updated.status.conditions OrphanConditionTypeError).status = ConditionStatusFalse ∧
      (GetCondition updated.status.conditions OrphanConditionTypeError).reason = "" ∧
      (GetCondition updated.status.conditions OrphanConditionTypeError).message = "") ∧
    ((GetCondition orphan.status.conditions OrphanConditionTypeError).status = ConditionStatusTrue →
      GetCondition updated.status.conditions OrphanConditionTypeError =
        GetCondition orphan.status.conditions OrphanConditionTypeError) := by
  unfold updateConditions at h
  cases h1 : updateDataCleanableCondition oc 0 orphan with
  | error err => simp [h1] at h
  | ok o1 =>
    obtain ⟨reason, _, hshape⟩ := updateDataCleanableCondition_shape oc 0 orphan o1 h1
    have herr : GetCondition o1.status.conditions OrphanConditionTypeError =
        GetCondition orphan.status.conditions OrphanConditionTypeError := by
      rw [hshape]
      exact GetCondition_Error_SetCondition_DataCleanable _ _ _ _ _
    simp only [h1, herr] at h
    by_cases hs : (GetCondition orphan.status.conditions OrphanConditionTypeError).status =
        ConditionStatusTrue
    · simp only [hs, ne_eq, not_true_eq_false, if_false, Except.ok.injEq] at h
      subst h
      exact ⟨fun hne => absurd hs hne, fun _ => herr⟩
    · simp only [ne_eq, hs, not_false_eq_true, if_true, Except.ok.injEq] at h
      subst h
      refine ⟨fun _ => ?_, fun he => absurd he hs⟩
      simp only [GetCondition_SetCondition, if_true, and_self]

/-- An instance of the amended C6: an orphan without an Error condition. -/
theorem updateConditions_error_condition_witness :
    (GetCondition (liveOrphan [cleanableCondition]).status.conditions
        OrphanConditionTypeError).status ≠ ConditionStatusTrue ∧
    (GetCondition (liveOrphan settledConditions).status.conditions
        OrphanConditionTypeError).status = ConditionStatusFalse :=
  ⟨by decide,
   ((updateConditions_error_condition exampleWorld (liveOrphan [cleanableCondition])
      (liveOrphan settledConditions) rfl).1 (by decide)).1⟩

/-- C7, the code at the failing input: the disk service fails with a transient error in the
deletion branch; `cleanupOrphanedData` sets the Error condition, with the text of the error it
returns, on the orphan in memory, `reconcile` returns that error, and no status write is made:
the only calls of the pass are the remote delete and the close of the client. -/
theorem reconcile_cleanup_failure_not_stored :
    (cleanupOrphanedData brokenDiskService blockOrphan).err = some
      { text := "failed to delete orphan orphan-1 data: cannot delete v2 replica instance pvc-1-r-abc: rpc error: connection refused",
        reason := "" } ∧
    ((GetCondition (cleanupOrphanedData brokenDiskService blockOrphan).orphan.status.conditions
        OrphanConditionTypeError).status = ConditionStatusTrue ∧
      some (GetCondition (cleanupOrphanedData brokenDiskService blockOrphan).orphan.status.conditions
        OrphanConditionTypeError).message =
        (cleanupOrphanedData brokenDiskService blockOrphan).err.map GoError.text) ∧
    (reconcile (worldWith brokenDiskService blockOrphan) "orphan-1").err =
      (cleanupOrphanedData brokenDiskService blockOrphan).err ∧
    (reconcile (worldWith brokenDiskService blockOrphan) "orphan-1").effects =
      [Effect.DiskReplicaInstanceDelete "block" "disk-1" "uuid-1" "" "pvc-1-r-abc", Effect.Close] ∧
    (reconcile (worldWith brokenDiskService blockOrphan) "orphan-1").effects.any
      Effect.isUpdateOrphanStatus = false := by
  decide

/-- C9: with the same answers of the node availability, node and ready-disk lookups, whatever
the clock reads, `updateConditions` applied to the orphan a successful `updateConditions`
returned gives that orphan back unchanged (conditions with their status, reason, message and
transition time, and owner); a second `reconcile` pass that fetches it, for an orphan without a
deletion timestamp owned by the controller, makes no call, so no status write, and returns nil. -/
theorem updateConditions_idempotent (oc1 oc2 : World) (orphan updated : Orphan)
    (hdown : oc2.IsNodeDownOrDeletedOrMissingManager = oc1.IsNodeDownOrDeletedOrMissingManager)
    (hnode : oc2.GetNode = oc1.GetNode) (hdisk : oc2.GetReadyDisk = oc1.GetReadyDisk)
    (hlive : timeIsZero orphan.deletionTimestamp = true)
    (h : updateConditions oc1 orphan = .ok updated) :
    updateConditions oc2 updated = .ok updated ∧
    (∀ orphanName, oc2.GetOrphan orphanName = .ok updated → isResponsibleFor oc2 updated = true →
      updated.status.ownerID = oc2.controllerID →
      reconcile oc2 orphanName = { err := none, effects := [] }) := by
  have hDE : OrphanConditionTypeError ≠ OrphanConditionTypeDataCleanable := by decide
  have hFT : ConditionStatusFalse ≠ ConditionStatusTrue := by decide
  have hmain : updateConditions oc2 updated = .ok updated ∧
      updated.deletionTimestamp = orphan.deletionTimestamp := by
    unfold updateConditions at h
    cases h1 : updateDataCleanableCondition oc1 0 orphan with
    | error err => simp [h1] at h
    | ok o1 =>
      obtain ⟨reason, hreason, hshape⟩ := updateDataCleanableCondition_shape oc1 0 orphan o1 h1
      simp only [h1] at h
      by_cases hs : (GetCondition o1.status.conditions OrphanConditionTypeError).status =
          ConditionStatusTrue
      · simp only [hs, ne_eq, not_true_eq_false, if_false, Except.ok.injEq] at h
        subst h
        have hreason2 : dataCleanableReason oc2 o1 = .ok reason := by
          rw [dataCleanableReason_congr oc1 oc2 orphan o1 hdown hnode hdisk (by rw [hshape]), hreason]
        have hstep : updateDataCleanableCondition oc2 0 o1 = .ok o1 := by
          rw [updateDataCleanableCondition_ok oc2 0 o1 reason hreason2]
          have hcs : SetCondition o1.status.conditions OrphanConditionTypeDataCleanable
              (if reason ≠ "" then ConditionStatusFalse else ConditionStatusTrue) reason ""
              (oc2.Now 0) = o1.status.conditions := by
            rw [hshape]
            exact SetCondition_again _ _ _ _ _ _ _
          rw [hcs]
        refine ⟨?_, by rw [hshape]⟩
        unfold updateConditions
        simp only [hstep, hs, ne_eq, not_true_eq_false, if_false]
      · simp only [ne_eq, hs, not_false_eq_true, if_true, Except.ok.injEq] at h
        subst h
        have hreason2 : dataCleanableReason oc2
            { o1 with status := { o1.status with
              conditions := SetCondition o1.status.conditions OrphanConditionTypeError
                ConditionStatusFalse "" "" (oc1.Now 1) } } = .ok reason := by
          rw [dataCleanableReason_congr oc1 oc2 orphan _ hdown hnode hdisk (by rw [hshape]), hreason]
        have hstep : updateDataCleanableCondition oc2 0
            { o1 with status := { o1.status with
              conditions := SetCondition o1.status.conditions OrphanConditionTypeError
                ConditionStatusFalse "" "" (oc1.Now 1) } } =
            .ok { o1 with status := { o1.status with
              conditions := SetCondition o1.status.conditions OrphanConditionTypeError
                ConditionStatusFalse "" "" (oc1.Now 1) } } := by
          rw [updateDataCleanableCondition_ok oc2 0 _ reason hreason2]
          have hcs : SetCondition (SetCondition o1.status.conditions OrphanConditionTypeError
                ConditionStatusFalse "" "" (oc1.Now 1)) OrphanConditionTypeDataCleanable
              (if reason ≠ "" then ConditionStatusFalse else ConditionStatusTrue) reason ""
              (oc2.Now 0) = SetCondition o1.status.conditions OrphanConditionTypeError
                ConditionStatusFalse "" "" (oc1.Now 1) := by
            rw [hshape]
            exact SetCondition_again_other _ _ _ _ _ _ _ _ _ _ _ _ hDE
          simp only [hcs]
        refine ⟨?_, by rw [hshape]⟩
        unfold updateConditions
        simp only [hstep, GetCondition_SetCondition, if_true, ne_eq, hFT, not_false_eq_true,
          SetCondition_again]
  refine ⟨hmain.1, ?_⟩
  intro orphanName hget hresp howner
  have hclaim : claimOwnership oc2 updated = .inr (updated, []) := by
    unfold claimOwnership
    simp [howner]
  rw [reconcile_branch oc2 orphanName updated updated [] hget hresp hclaim]
  simp only [hmain.2, hlive, Bool.not_true, Bool.false_eq_true, if_false]
  unfold reconcileNormal
  simp only [hmain.1, if_true]

/-- An instance of C9: a second pass in the example cluster at a later reading of the clock. -/
theorem updateConditions_idempotent_witness :
    updateConditions laterWorld (liveOrphan settledConditions) = .ok (liveOrphan settledConditions) ∧
    reconcile (worldWith laterWorld (liveOrphan settledConditions)) "orphan-1" =
      { err := none, effects := [] } :=
  ⟨(updateConditions_idempotent exampleWorld laterWorld (liveOrphan [cleanableCondition])
      (liveOrphan settledConditions) rfl rfl rfl rfl rfl).1,
   (updateConditions_idempotent exampleWorld (worldWith laterWorld (liveOrphan settledConditions))
      (liveOrphan [cleanableCondition]) (liveOrphan settledConditions) rfl rfl rfl rfl rfl).2
      "orphan-1" rfl rfl rfl⟩

/-- C10: `handleErr` makes one call on the queue: `Forget` when the sync returned nil,
`AddRateLimited` when it failed and the key was requeued less than `maxRetries` times, `Forget`
when it failed and the key was requeued `maxRetries` times or more; so a key whose sync fails
every time, requeued `r` times so far, is requeued `maxRetries - r` more times and then dropped. -/
theorem handleErr_decision (maxRetries : Nat) (queue : Queue) (err : Option GoError)
    (failure : GoError) (key : String) :
    (err = none → handleErr maxRetries queue err key = queue.Forget key) ∧
    (err ≠ none → queue.NumRequeues key < maxRetries →
      handleErr maxRetries queue err key = queue.AddRateLimited key) ∧
    (err ≠ none → maxRetries ≤ queue.NumRequeues key →
      handleErr maxRetries queue err key = queue.Forget key) ∧
    (∃ call, (handleErr maxRetries queue err key).calls = call :: queue.calls) ∧
    (queue.NumRequeues key ≤ maxRetries →
      (handleErrRepeat maxRetries failure key (maxRetries - queue.NumRequeues key + 1) queue).calls =
        QueueCall.Forget key ::
          (List.replicate (maxRetries - queue.NumRequeues key) (QueueCall.AddRateLimited key) ++
            queue.calls)) := by
  refine ⟨?_, ?_, ?_, ?_, ?_⟩
  · intro h
    subst h
    rfl
  · intro h hlt
    cases err with
    | none => exact absurd rfl h
    | some e => simp [handleErr, hlt]
  · intro h hle
    cases err with
    | none => exact absurd rfl h
    | some e => simp [handleErr, Nat.not_lt.mpr hle]
  · cases err with
    | none => exact ⟨_, rfl⟩
    | some e =>
      unfold handleErr
      simp only
      split
      · exact ⟨_, rfl⟩
      · exact ⟨_, rfl⟩
  · intro hle
    exact handleErrRepeat_calls maxRetries failure key (maxRetries - queue.NumRequeues key) queue
      (by omega)

/-- An instance of C10: with three retries a fresh key is requeued three times, then dropped. -/
theorem handleErr_decision_witness :
    (handleErrRepeat 3 transientError "longhorn-system/orphan-1" 4
        { requeues := fun _ => 0, calls := [] }).calls =
      [QueueCall.Forget "longhorn-system/orphan-1",
       QueueCall.AddRateLimited "longhorn-system/orphan-1",
       QueueCall.AddRateLimited "longhorn-system/orphan-1",
       QueueCall.AddRateLimited "longhorn-system/orphan-1"] :=
  (handleErr_decision 3 { requeues := fun _ => 0, calls := [] } none transientError
    "longhorn-system/orphan-1").2.2.2.2 (by decide)

/-- C11: in a pass that got through the responsibility check and the ownership step and enters
the normal branch (no deletion timestamp), the calls after those of the ownership step are as
follows. When `updateConditions` succeeds, a status write is among them if and only if the
recomputed status differs from the status the branch started with, the orphan is enqueued if and
only if that write was made and failed with a conflict, and `reconcile` returns nil whatever the
write answered. When `updateConditions` fails, there is no further call and `reconcile` returns
the error, wrapped. -/
theorem reconcile_normal_branch (oc : World) (orphanName : String) (fetched orphan : Orphan)
    (done : List Effect)
    (hget : oc.GetOrphan orphanName = .ok fetched)
    (hresp : isResponsibleFor oc fetched = true)
    (hclaim : claimOwnership oc fetched = .inr (orphan, done))
    (hlive : timeIsZero orphan.deletionTimestamp = true) :
    (∀ updated, updateConditions oc orphan = .ok updated →
      ∃ extra, (reconcile oc orphanName).effects = done ++ extra ∧
        (extra.any Effect.isUpdateOrphanStatus = true ↔ updated.status ≠ orphan.status) ∧
        (extra.any Effect.isUpdateOrphanStatus = true → Effect.UpdateOrphanStatus updated ∈ extra) ∧
        (extra.any Effect.isEnqueue = true ↔
          updated.status ≠ orphan.status ∧
          ∃ err, oc.UpdateOrphanStatus done.length updated = .error err ∧
            IsConflict (Cause err) = true) ∧
        (reconcile oc orphanName).err = none) ∧
    (∀ err, updateConditions oc orphan = .error err →
      (reconcile oc orphanName).effects = done ∧
      (reconcile oc orphanName).err =
        some (withMessage err ("failed to update conditions for orphan " ++ orphan.name))) := by
  have hrec : reconcile oc orphanName = reconcileNormal oc orphan done := by
    rw [reconcile_branch oc orphanName fetched orphan done hget hresp hclaim]
    simp [hlive]
  rw [hrec]
  constructor
  · intro updated hupd
    unfold reconcileNormal
    simp only [hupd]
    by_cases hsame : orphan.status = updated.status
    · refine ⟨[], by simp [hsame], ?_, ?_, ?_, by simp [hsame]⟩
      · simp [hsame]
      · simp
      · simp [hsame]
    · have hdiff : updated.status ≠ orphan.status := fun e => hsame e.symm
      simp only [hsame, if_false]
      cases hw : oc.UpdateOrphanStatus done.length updated with
      | error err =>
        by_cases hc : IsConflict (Cause err) = true
        · refine ⟨[Effect.UpdateOrphanStatus updated, Effect.enqueueOrphan updated],
            by simp [hc], ?_, ?_, ?_, by simp [hc]⟩
          · simp [Effect.isUpdateOrphanStatus, hdiff]
          · simp
          · simp [Effect.isEnqueue, hdiff, hc]
        · refine ⟨[Effect.UpdateOrphanStatus updated], by simp [hc], ?_, ?_, ?_, by simp [hc]⟩
          · simp [Effect.isUpdateOrphanStatus, hdiff]
          · simp
          · simp [Effect.isEnqueue, hc]
      | ok stored =>
        refine ⟨[Effect.UpdateOrphanStatus updated], by simp, ?_, ?_, ?_, by simp⟩
        · simp [Effect.isUpdateOrphanStatus, hdiff]
        · simp
        · simp [Effect.isEnqueue]
  · intro err herr
    unfold reconcileNormal
    simp [herr, Wrapf]

/-- An instance of C11: the status changes and the store answers the write with a conflict. -/
theorem reconcile_normal_branch_witness :
    ∃ extra,
      (reconcile (worldWith conflictingStore (liveOrphan [cleanableCondition])) "orphan-1").effects =
        [] ++ extra ∧
      (extra.any Effect.isUpdateOrphanStatus = true ↔
        (liveOrphan settledConditions).status ≠ (liveOrphan [cleanableCondition]).status) ∧
      (extra.any Effect.isUpdateOrphanStatus = true →
        Effect.UpdateOrphanStatus (liveOrphan settledConditions) ∈ extra) ∧
      (extra.any Effect.isEnqueue = true ↔
        (liveOrphan settledConditions).status ≠ (liveOrphan [cleanableCondition]).status ∧
        ∃ err, (worldWith conflictingStore (liveOrphan [cleanableCondition])).UpdateOrphanStatus
            ([] : List Effect).length (liveOrphan settledConditions) = .error err ∧
          IsConflict (Cause err) = true) ∧
      (reconcile (worldWith conflictingStore (liveOrphan [cleanableCondition])) "orphan-1").err = none :=
  (reconcile_normal_branch (worldWith conflictingStore (liveOrphan [cleanableCondition])) "orphan-1"
    (liveOrphan [cleanableCondition]) (liveOrphan [cleanableCondition]) [] rfl rfl (by decide)
    rfl).1 (liveOrphan settledConditions) rfl

/-- C12, the claim as it is written fails: without a data directory name in the parameters the
path handed to `DeletePath` is the replicas directory of the disk itself, and with the name
`../..` it is a directory above the disk path; neither lies strictly below the replicas
directory. -/
theorem deleteOrphanedReplica_path_not_below :
    ((deleteOrphanedReplica exampleWorld namelessOrphan).2 =
        [Effect.DeletePath "/var/disk1/replicas"] ∧
      filepathJoin ["/var/disk1", "replicas"] = "/var/disk1/replicas" ∧
      isStrictDescendant (filepathJoin ["/var/disk1", "replicas"]) "/var/disk1/replicas" = false) ∧
    ((deleteOrphanedReplica exampleWorld parentOrphan).2 = [Effect.DeletePath "/var"] ∧
      isStrictDescendant (filepathJoin ["/var/disk1", "replicas"]) "/var" = false) := by
  decide

/-- C12, amended: for a filesystem-backed orphan `deleteOrphanedReplica` makes one call, the
`DeletePath` of the cleaned join of the disk path parameter, `replicas` and the data directory
name parameter; when the data directory name is a single path element (not empty, neither `.`
nor `..`, without a slash), this path is the cleaned join of the disk path and `replicas`, a
slash and the name, so it lies strictly below the replicas directory. -/
theorem deleteOrphanedReplica_path (oc : World) (orphan : Orphan)
    (hfs : mapLookup orphan.spec.parameters OrphanDiskType = some DiskTypeFilesystem) :
    (deleteOrphanedReplica oc orphan).2 =
      [Effect.DeletePath (filepathJoin [mapIndex orphan.spec.parameters OrphanDiskPath, "replicas",
        mapIndex orphan.spec.parameters OrphanDataName])] ∧
    (isPathElement (mapIndex orphan.spec.parameters OrphanDataName) = true →
      filepathJoin [mapIndex orphan.spec.parameters OrphanDiskPath, "replicas",
          mapIndex orphan.spec.parameters OrphanDataName] =
        filepathJoin [mapIndex orphan.spec.parameters OrphanDiskPath, "replicas"] ++ "/" ++
          mapIndex orphan.spec.parameters OrphanDataName ∧
      isStrictDescendant (filepathJoin [mapIndex orphan.spec.parameters OrphanDiskPath, "replicas"])
        (filepathJoin [mapIndex orphan.spec.parameters OrphanDiskPath, "replicas",
          mapIndex orphan.spec.parameters OrphanDataName]) = true) := by
  constructor
  · unfold deleteOrphanedReplica
    simp [hfs]
  · intro hname
    have hjoin := filepathJoin_element (mapIndex orphan.spec.parameters OrphanDiskPath)
      (mapIndex orphan.spec.parameters OrphanDataName) hname
    refine ⟨hjoin, ?_⟩
    rw [hjoin]
    apply isStrictDescendant_append
    simp only [isPathElement, Bool.and_eq_true, decide_eq_true_eq] at hname
    exact hname.1.1.1

/-- An instance of the amended C12: the replica directory `pvc-1-r-abc` on the disk at
`/var/disk1`. -/
theorem deleteOrphanedReplica_path_witness :
    (deleteOrphanedReplica exampleWorld fsOrphan).2 =
      [Effect.DeletePath "/var/disk1/replicas/pvc-1-r-abc"] ∧
    isStrictDescendant "/var/disk1/replicas" "/var/disk1/replicas/pvc-1-r-abc" = true :=
  ⟨(deleteOrphanedReplica_path exampleWorld fsOrphan (by decide)).1,
   ((deleteOrphanedReplica_path exampleWorld fsOrphan (by decide)).2 (by decide)).2⟩

end OrphanController
